import Mathlib

/-!
# app-exchange: the I/O state machine, the dispatch gate, the main cycle and the
supervisor loop

Shallow embedding of `src/src/main.c` and `src/src/init.c`.

* The C globals `G_io_apdu_buffer`, `ctx`, `output_length` and `io_state` are the
  fields of `State`, threaded explicitly through every function.
* Functions that are called but not defined in the two source files (the transport
  primitive `io_exchange`, the command handlers behind `dispatch_command`, the UI and
  the hardware bring-up calls) are the fields of `Env`. Each of them sees the whole
  history of calls made so far, so an environment may answer every call differently.
* The SDK reports faults by a non-local jump (`THROW`, caught by `TRY`/`CATCH` in
  `main`). Every call into the environment may therefore end in `Ret.raised f` instead
  of a value, and the functions of `main.c` pass such an outcome on unchanged.
* The environment reaches the globals only through what main.c does with its
  answers: `io_exchange` leaves a frame in the APDU buffer and returns a length, a
  handler writes the context and calls the reply function it was given. Neither
  calls `recv_apdu` or `send_apdu` behind the back of `app_main`.
* The two endless loops, of `app_main` and of `main`, run for a number of passes given
  as an argument; a run that uses them up ends in `out_of_fuel`.
* `State.trace` is not a C variable. It records, in order, the calls made, so that
  statements such as "no exchange is performed" can be written down.
-/

namespace AppExchange

/-! ## Constants -/

/-- The value of `#define CLA 0xE0` (main.c, line 28). -/
def CLA : Nat := 0xE0

/-- Modelled from the spec: `apdu_offsets.h` is not among the source files; section 6
of the specification puts the class byte at offset 0. -/
def OFFSET_CLA : Nat := 0

/-- Modelled from the spec: `apdu_offsets.h` is not among the source files; section 6
of the specification puts the instruction byte at offset 1. -/
def OFFSET_INS : Nat := 1

/-- Modelled from the spec: `apdu_offsets.h` is not among the source files; section 6
of the specification lets the payload start at offset 2. -/
def OFFSET_CDATA : Nat := 2

/-- The conversion performed by `output_length = buffer_length`, from `unsigned int`
to `int` on the 32 bit target: the value is kept modulo `2^32` and read back as a
two's complement number. -/
def int_of_unsigned (n : Nat) : Int :=
  if n % 2 ^ 32 < 2 ^ 31 then ((n % 2 ^ 32 : Nat) : Int)
  else ((n % 2 ^ 32 : Nat) : Int) - 2 ^ 32

/-! ## Data model -/

/-- The enumeration `io_state_e` (main.c, lines 45-49). -/
inductive io_state_e where
  | READY
  | RECEIVED
  | WAITING_USER
  deriving DecidableEq, Repr

/-- Faults thrown through the SDK exception mechanism. `main` tells
`EXCEPTION_IO_RESET` from every other code (main.c, lines 168-176). -/
inductive Fault where
  | EXCEPTION_IO_RESET
  | OTHER (code : Nat)
  deriving DecidableEq, Repr

/-- Outcome of a call: it returns a value, or a fault unwinds it. -/
inductive Ret (α : Type) where
  | ok (v : α)
  | raised (f : Fault)
  deriving DecidableEq, Repr

/-- The application context `swap_app_context_t`. Its declaration
(`swap_app_context.h`) is not among the source files; the two members below are the
ones `init_application_context` writes (init.c, lines 22-23). -/
structure swap_app_context_t where
  ledger_public_key : List Nat
  state : Nat
  deriving DecidableEq, Repr

/-- The flag argument of `io_exchange`, one value for each of the three flag
expressions that occur in main.c: `CHANNEL_APDU` (line 60),
`CHANNEL_APDU | IO_ASYNCH_REPLY` (line 64) and `CHANNEL_APDU | IO_RETURN_AFTER_TX`
(line 88). -/
inductive ExchangeMode where
  | CHANNEL_APDU
  | IO_ASYNCH_REPLY
  | IO_RETURN_AFTER_TX
  deriving DecidableEq, Repr

/-- Calls into the environment that take no part in the frame traffic. -/
inductive ExtCall where
  | os_boot
  | UX_INIT
  | io_seproxyhal_init
  | USB_power (power : Nat)
  | power_ble
  | cx_ecfp_init_public_key (key : List Nat)
  | ui_idle
  | create_payin_transaction
  | os_sched_exit (code : Int)
  deriving DecidableEq, Repr

/-- One entry of the call log. `io_exchange` keeps the flag, the transmit length and
the bytes handed over (the first `tx_len` bytes of the APDU buffer at the time of the
call); `dispatch_command` keeps the opcode, the context, the payload pointer (the
buffer from `OFFSET_CDATA` on) and the payload length. -/
inductive Event where
  | recv_apdu
  | send_apdu (buffer : List Nat) (buffer_length : Nat)
  | io_exchange (mode : ExchangeMode) (tx_len : Int) (out : List Nat)
  | dispatch_command (ins : Nat) (ctx : swap_app_context_t) (payload : List Nat)
      (payload_length : Int)
  | call (c : ExtCall)
  deriving DecidableEq, Repr

/-- The globals of main.c together with the call log. -/
structure State where
  G_io_apdu_buffer : List Nat
  ctx : swap_app_context_t
  output_length : Int
  io_state : io_state_e
  trace : List Event
  deriving DecidableEq, Repr

/-- What a command handler does with the reply function it is given: it returns a
status and leaves the context as `ctx`, or it throws, or it calls the reply function
on a buffer and goes on according to the value that call returns. The context it has
written so far is kept at every node, since the handler works on `&ctx`. -/
inductive Handler where
  | ret (status : Int) (ctx : swap_app_context_t)
  | raise (f : Fault) (ctx : swap_app_context_t)
  | reply (ctx : swap_app_context_t) (buffer : List Nat) (buffer_length : Nat)
      (k : Int → Handler)

/-- The parts of the program that are not in the two source files. Every field takes
the call log as its first argument. -/
structure Env where
  /-- `COMMAND_UPPER_BOUND` of `commands.h`. -/
  COMMAND_UPPER_BOUND : Nat
  /-- `INITIAL_STATE` of `swap_app_context.h`. -/
  INITIAL_STATE : Nat
  /-- Whether `TEST_PUBLIC_KEY` is defined at build time (init.c, line 6). -/
  TEST_PUBLIC_KEY : Bool
  /-- The transport primitive: from the flag, the transmit length and the APDU buffer
  to the value returned and the new content of the APDU buffer, or a fault. -/
  io_exchange : List Event → ExchangeMode → Int → List Nat → Ret (Int × List Nat)
  /-- The command handler set: from the opcode, the context, the payload pointer and
  the payload length to the behaviour of the handler. -/
  dispatch_command : List Event → Nat → swap_app_context_t → List Nat → Int → Handler
  /-- Whether one of the other calls into the environment throws. -/
  raises : List Event → ExtCall → Option Fault

/-! ## The functions of main.c and init.c -/

/-- `os_memmove(dst, src, n)`: the first `n` bytes of `dst` become the first `n`
bytes of `src`. -/
def os_memmove (dst src : List Nat) (n : Nat) : List Nat :=
  src.take n ++ dst.drop n

/-- A call into the environment other than `io_exchange` and `dispatch_command`: it
is logged and returns, unless the environment throws. -/
def ext_call (env : Env) (c : ExtCall) (s : State) : Ret Unit × State :=
  match env.raises s.trace c with
  | some f => (.raised f, { s with trace := s.trace ++ [Event.call c] })
  | none => (.ok (), { s with trace := s.trace ++ [Event.call c] })

/-- A call `io_exchange(flags, tx_len)`: the exchange is logged with the bytes it
hands over, the APDU buffer takes the content the transport leaves in it. -/
def io_exchange (env : Env) (mode : ExchangeMode) (tx_len : Int) (s : State) :
    Ret Int × State :=
  let ev := Event.io_exchange mode tx_len (s.G_io_apdu_buffer.take tx_len.toNat)
  match env.io_exchange s.trace mode tx_len s.G_io_apdu_buffer with
  | .raised f => (.raised f, { s with trace := s.trace ++ [ev] })
  | .ok (r, buf) => (.ok r, { s with G_io_apdu_buffer := buf, trace := s.trace ++ [ev] })

/-- The function `recv_apdu` (main.c, lines 54-72). -/
def recv_apdu (env : Env) (s : State) : Ret Int × State :=
  let s0 := { s with trace := s.trace ++ [Event.recv_apdu] }
  match s0.io_state with
  | .READY =>
    io_exchange env .CHANNEL_APDU s0.output_length { s0 with io_state := .RECEIVED }
  | .RECEIVED =>
    io_exchange env .IO_ASYNCH_REPLY s0.output_length { s0 with io_state := .WAITING_USER }
  | .WAITING_USER => (.ok (-1), { s0 with io_state := .READY })

/-- The function `send_apdu` (main.c, lines 75-95). -/
def send_apdu (env : Env) (buffer : List Nat) (buffer_length : Nat) (s : State) :
    Ret Int × State :=
  let s0 := { s with trace := s.trace ++ [Event.send_apdu buffer buffer_length] }
  let s1 := { s0 with
    G_io_apdu_buffer := os_memmove s0.G_io_apdu_buffer buffer buffer_length,
    output_length := int_of_unsigned buffer_length }
  match s1.io_state with
  | .READY => (.ok (-1), s1)
  | .RECEIVED => (.ok 0, { s1 with io_state := .READY })
  | .WAITING_USER =>
    match io_exchange env .IO_RETURN_AFTER_TX s1.output_length s1 with
    | (.raised f, s2) => (.raised f, s2)
    | (.ok _, s2) => (.ok 0, { s2 with output_length := 0, io_state := .READY })

/-- The array `LedgerPubKey` of init.c (lines 8-20) under either setting of
`TEST_PUBLIC_KEY`. -/
def LedgerPubKey (test_public_key : Bool) : List Nat :=
  if test_public_key then
    [0x4,
     0x5, 0xC5, 0x2E, 0xC5, 0xFE, 0x24, 0x5A, 0x55,
     0x7B, 0x86, 0x1D, 0x22, 0x18, 0x50, 0x1A, 0x81,
     0x2D, 0x32, 0xE0, 0x34, 0xE1, 0x5E, 0x9D, 0x96,
     0x1C, 0x1B, 0x1A, 0x13, 0x8C, 0x7F, 0xB1, 0x49,
     0x6B, 0x4F, 0xBA, 0x66, 0x65, 0x56, 0x66, 0x62,
     0x3E, 0xB7, 0x8C, 0x93, 0xE9, 0xF0, 0x0, 0x8F,
     0xCC, 0xA6, 0xA, 0x53, 0x85, 0x88, 0x13, 0x1A,
     0x2A, 0xC7, 0xBA, 0x98, 0xE1, 0xF6, 0x20, 0xCE]
  else []

/-- The function `init_application_context` (init.c, lines 5-24), applied to the
global `ctx`. -/
def init_application_context (env : Env) (s : State) : Ret Unit × State :=
  let key := LedgerPubKey env.TEST_PUBLIC_KEY
  match ext_call env (.cx_ecfp_init_public_key key) s with
  | (.raised f, s1) => (.raised f, s1)
  | (.ok _, s1) =>
    (.ok (), { s1 with ctx := { ledger_public_key := key, state := env.INITIAL_STATE } })

/-- A handler running with `reply_fn` as its reply function. -/
def run_handler (reply_fn : List Nat → Nat → State → Ret Int × State) :
    Handler → State → Ret Int × State
  | .ret status c, s => (.ok status, { s with ctx := c })
  | .raise f c, s => (.raised f, { s with ctx := c })
  | .reply c b n k, s =>
    match reply_fn b n { s with ctx := c } with
    | (.raised f, s1) => (.raised f, s1)
    | (.ok r, s1) => run_handler reply_fn (k r) s1

/-- A call `dispatch_command(ins, &ctx, payload, payload_length, reply_fn)`: the call
is logged with its arguments and the handler chosen by the environment runs. -/
def dispatch_command (env : Env) (ins : Nat) (payload : List Nat) (payload_length : Int)
    (reply_fn : List Nat → Nat → State → Ret Int × State) (s : State) : Ret Int × State :=
  run_handler reply_fn (env.dispatch_command s.trace ins s.ctx payload payload_length)
    { s with trace := s.trace ++ [Event.dispatch_command ins s.ctx payload payload_length] }

/-- How one pass through the body of the `for(;;)` of `app_main` ends: the loop goes
round again, `app_main` returns, or a fault unwinds it. -/
inductive Step where
  | again
  | returned
  | raised (f : Fault)
  deriving DecidableEq, Repr

/-- The block run when `ctx.state == INITIAL_STATE` (main.c, lines 120-130). -/
def idle_block (env : Env) (s : State) : Step × State :=
  match ext_call env .ui_idle s with
  | (.raised f, s1) => (.raised f, s1)
  | (.ok _, s1) =>
    match ext_call env .create_payin_transaction s1 with
    | (.raised f, s2) => (.raised f, s2)
    | (.ok _, s2) => (.again, s2)

/-- The body of the `for(;;)` of `app_main` (main.c, lines 106-130). -/
def app_main_body (env : Env) (s : State) : Step × State :=
  match recv_apdu env s with
  | (.raised f, s1) => (.raised f, s1)
  | (.ok input_length, s1) =>
    if input_length = -1 then (.returned, s1)
    else if input_length ≤ (OFFSET_INS : Int) ∨
        s1.G_io_apdu_buffer.getD OFFSET_CLA 0 ≠ CLA ∨
        s1.G_io_apdu_buffer.getD OFFSET_INS 0 ≥ env.COMMAND_UPPER_BOUND then
      (.returned, s1)
    else
      match dispatch_command env (s1.G_io_apdu_buffer.getD OFFSET_INS 0)
          (s1.G_io_apdu_buffer.drop OFFSET_CDATA) (input_length - (OFFSET_CDATA : Int))
          (send_apdu env) s1 with
      | (.raised f, s2) => (.raised f, s2)
      | (.ok status, s2) =>
        if status < 0 then (.returned, s2)
        else if s2.ctx.state = env.INITIAL_STATE then idle_block env s2
        else (.again, s2)

/-- How a run of `app_main` ends within the given number of passes. -/
inductive Outcome where
  | returned
  | raised (f : Fault)
  | out_of_fuel
  deriving DecidableEq, Repr

/-- The `for(;;)` of `app_main`, at most `fuel` passes. -/
def app_main_loop (env : Env) : Nat → State → Outcome × State
  | 0, s => (.out_of_fuel, s)
  | fuel + 1, s =>
    match app_main_body env s with
    | (.raised f, s1) => (.raised f, s1)
    | (.returned, s1) => (.returned, s1)
    | (.again, s1) => app_main_loop env fuel s1

/-- The function `app_main` (main.c, lines 97-132). -/
def app_main (env : Env) (fuel : Nat) (s : State) : Outcome × State :=
  match init_application_context env s with
  | (.raised f, s1) => (.raised f, s1)
  | (.ok _, s1) =>
    match ext_call env .ui_idle s1 with
    | (.raised f, s2) => (.raised f, s2)
    | (.ok _, s2) => app_main_loop env fuel { s2 with output_length := 0, io_state := .READY }

/-! ## Sequences of calls and the transition table -/

/-- One call on the I/O state machine: `recv_apdu()` or `send_apdu(buffer, n)`. -/
inductive ApduCall where
  | recv
  | send (buffer : List Nat) (buffer_length : Nat)
  deriving DecidableEq, Repr

/-- The table of section 4.1 of the specification, written from its words as a
next-state function: `recv` takes `Ready` to `Received` and `Received` to
`WaitingUser`, `send` takes `Received` and `WaitingUser` to `Ready`, and the two
invalid calls end in `Ready` (section 8). -/
def table_4_1 : io_state_e → ApduCall → io_state_e
  | .READY, .recv => .RECEIVED
  | .RECEIVED, .recv => .WAITING_USER
  | .WAITING_USER, .recv => .READY
  | .READY, .send _ _ => .READY
  | .RECEIVED, .send _ _ => .READY
  | .WAITING_USER, .send _ _ => .READY

/-- One call performed on the code. -/
def do_call (env : Env) : ApduCall → State → Ret Int × State
  | .recv, s => recv_apdu env s
  | .send b n, s => send_apdu env b n s

/-- A sequence of calls performed one after the other, with the values they return;
a fault ends the sequence. -/
def run_calls (env : Env) : List ApduCall → State → Ret (List Int) × State
  | [], s => (.ok [], s)
  | c :: cs, s =>
    match do_call env c s with
    | (.raised f, s1) => (.raised f, s1)
    | (.ok r, s1) =>
      match run_calls env cs s1 with
      | (.raised f, s2) => (.raised f, s2)
      | (.ok rs, s2) => (.ok (r :: rs), s2)

/-! ## The supervisor loop of `main` -/

/-- The part of `app_main` before its `for(;;)` (main.c, lines 99-104): the context is
initialised, the idle UI is drawn, `output_length` and `io_state` are reset. -/
def app_main_entry (env : Env) (s : State) : Ret Unit × State :=
  match init_application_context env s with
  | (.raised f, s1) => (.raised f, s1)
  | (.ok _, s1) =>
    match ext_call env .ui_idle s1 with
    | (.raised f, s2) => (.raised f, s2)
    | (.ok _, s2) => (.ok (), { s2 with output_length := 0, io_state := .READY })

/-- Calls into the environment made one after the other; a fault ends the sequence. -/
def ext_calls (env : Env) : List ExtCall → State → Ret Unit × State
  | [], s => (.ok (), s)
  | c :: cs, s =>
    match ext_call env c s with
    | (.raised f, s1) => (.raised f, s1)
    | (.ok _, s1) => ext_calls env cs s1

/-- The hardware bring-up inside the `TRY` of `main` (main.c, lines 159-164):
`io_seproxyhal_init(); USB_power(0); USB_power(1); power_ble();`. -/
def bring_up (env : Env) (s : State) : Ret Unit × State :=
  ext_calls env [.io_seproxyhal_init, .USB_power 0, .USB_power 1, .power_ble] s

/-- The block protected by `TRY` in `main` (main.c, lines 158-167): the bring-up, then
`app_main`, which gets `inner` passes of its loop. -/
def protected_block (env : Env) (inner : Nat) (s : State) : Outcome × State :=
  match bring_up env s with
  | (.raised f, s1) => (.raised f, s1)
  | (.ok _, s1) => app_main env inner s1

/-- How one pass through the `for(;;)` of `main` ends: the loop goes round again, the
loop is left by `break`, a fault leaves `main` uncaught, or `app_main` is still
running when its passes are used up. -/
inductive IterEnd where
  | again
  | stopped
  | raised (f : Fault)
  | out_of_fuel
  deriving DecidableEq, Repr

/-- The `CATCH` clauses of `main` (main.c, lines 168-180): `EXCEPTION_IO_RESET` is
answered by `continue`, every other fault by `break`; when the protected block ends
without a fault, `END_TRY` is passed and the loop goes round. -/
def catch_route : Outcome × State → IterEnd × State
  | (.raised .EXCEPTION_IO_RESET, s) => (.again, s)
  | (.raised (.OTHER _), s) => (.stopped, s)
  | (.returned, s) => (.again, s)
  | (.out_of_fuel, s) => (.out_of_fuel, s)

/-- The body of the `for(;;)` of `main` (main.c, lines 155-180). `UX_INIT` stands
before `BEGIN_TRY`, a fault it throws is not caught in `main`. -/
def main_body (env : Env) (inner : Nat) (s : State) : IterEnd × State :=
  match ext_call env .UX_INIT s with
  | (.raised f, s1) => (.raised f, s1)
  | (.ok _, s1) => catch_route (protected_block env inner s1)

/-- The `for(;;)` of `main`, at most `outer` passes. -/
def main_loop (env : Env) (inner : Nat) : Nat → State → IterEnd × State
  | 0, s => (.out_of_fuel, s)
  | outer + 1, s =>
    match main_body env inner s with
    | (.again, s1) => main_loop env inner outer s1
    | (.stopped, s1) => (.stopped, s1)
    | (.raised f, s1) => (.raised f, s1)
    | (.out_of_fuel, s1) => (.out_of_fuel, s1)

/-- The function `app_exit` (main.c, lines 134-145): `os_sched_exit(-1)` under a
`TRY_L` with an empty `FINALLY_L` and no `CATCH`, so that a fault is passed on. -/
def app_exit (env : Env) (s : State) : Ret Unit × State :=
  ext_call env (.os_sched_exit (-1)) s

/-- How a run of `main` ends: it returns a value, a fault leaves it uncaught, or the
passes granted are used up. -/
inductive MainEnd where
  | returned (v : Int)
  | raised (f : Fault)
  | out_of_fuel
  deriving DecidableEq, Repr

/-- The function `main` (main.c, lines 147-184), with at most `outer` passes of its
loop and `inner` passes for each run of `app_main`. -/
def main (env : Env) (outer inner : Nat) (s : State) : MainEnd × State :=
  match ext_call env .os_boot s with
  | (.raised f, s1) => (.raised f, s1)
  | (.ok _, s1) =>
    match main_loop env inner outer s1 with
    | (.again, s2) => (.out_of_fuel, s2)
    | (.out_of_fuel, s2) => (.out_of_fuel, s2)
    | (.raised f, s2) => (.raised f, s2)
    | (.stopped, s2) =>
      match app_exit env s2 with
      | (.raised f, s3) => (.raised f, s3)
      | (.ok _, s3) => (.returned 0, s3)

/-- The C globals of a state, without the call log. -/
def globals (s : State) : List Nat × swap_app_context_t × Int × io_state_e :=
  (s.G_io_apdu_buffer, s.ctx, s.output_length, s.io_state)

/-- The cold start up to the first receive: `UX_INIT`, the bring-up and the part of
`app_main` before its loop. -/
def cold_start (env : Env) (s : State) : Ret Unit × State :=
  match ext_call env .UX_INIT s with
  | (.raised f, s1) => (.raised f, s1)
  | (.ok _, s1) =>
    match bring_up env s1 with
    | (.raised f, s2) => (.raised f, s2)
    | (.ok _, s2) => app_main_entry env s2

/-! ## Legal interleavings -/

/-- The two exchanges of sections 5 and 8 of the specification, written from its
words: `recv, send` (synchronous reply) and `recv, recv, send` (two-phase reply),
with any buffer in the send. -/
def is_exchange (l : List ApduCall) : Prop :=
  (∃ b n, l = [.recv, .send b n]) ∨ (∃ b n, l = [.recv, .recv, .send b n])

/-- A sequence of calls is a legal interleaving when it is an initial part of a
concatenation of exchanges. -/
def legal_interleaving (calls : List ApduCall) : Prop :=
  ∃ (blocks : List (List ApduCall)) (rest : List ApduCall),
    (∀ bl ∈ blocks, is_exchange bl) ∧ calls ++ rest = blocks.flatten

/-- The calls the table of section 4.1 does not mark invalid. -/
def valid_call : io_state_e → ApduCall → Bool
  | .READY, .recv => true
  | .READY, .send _ _ => false
  | .RECEIVED, _ => true
  | .WAITING_USER, .recv => false
  | .WAITING_USER, .send _ _ => true

/-- Whether every call of a sequence is valid in the state in which the table puts
it, starting from the state `st`. -/
def accepts : io_state_e → List ApduCall → Bool
  | _, [] => true
  | st, c :: t => valid_call st c && accepts (table_4_1 st c) t

/-! ## Reading the call log -/

/-- Whether a log entry is a call of `dispatch_command`. -/
def is_dispatch : Event → Bool
  | .dispatch_command _ _ _ _ => true
  | _ => false

/-- Whether a log entry is a call of `send_apdu`. -/
def is_reply : Event → Bool
  | .send_apdu _ _ => true
  | _ => false

/-- The calls of `dispatch_command` in a call log, in order. -/
def dispatch_calls (tr : List Event) : List Event := tr.filter is_dispatch

/-- The calls of `send_apdu` in a call log, in order. -/
def reply_calls (tr : List Event) : List Event := tr.filter is_reply

/-- The log entries the loop of `app_main` can add: everything except the calls into
the environment other than `ui_idle` and `create_payin_transaction`. -/
def loop_event : Event → Bool
  | .call .ui_idle => true
  | .call .create_payin_transaction => true
  | .call _ => false
  | _ => true

/-- Whether a log entry is the call `cx_ecfp_init_public_key` made by
`init_application_context`. -/
def is_init : Event → Bool
  | .call (.cx_ecfp_init_public_key _) => true
  | _ => false

/-- The calls of `init_application_context` in a call log, in order. -/
def init_calls (tr : List Event) : List Event := tr.filter is_init

/-- The log `tr2` is the log `tr1` followed by entries the loop of `app_main` can
add. -/
def LoopGrows (tr1 tr2 : List Event) : Prop :=
  ∃ ext, tr2 = tr1 ++ ext ∧ ∀ e ∈ ext, loop_event e = true

/-! ## Concrete environments and states -/

/-- The state in which the program starts: the initialisers of main.c (lines 51-52),
an APDU buffer of eight zero bytes, an empty call log. -/
def state_boot : State where
  G_io_apdu_buffer := [0, 0, 0, 0, 0, 0, 0, 0]
  ctx := { ledger_public_key := [], state := 0 }
  output_length := 0
  io_state := .READY
  trace := []

/-- An environment without faults: every receiving exchange delivers the three byte
frame `E0 01 07`, the final reply exchange leaves the buffer alone, and every handler
replies `90 00` once and returns what the reply function returned. -/
def env_echo : Env where
  COMMAND_UPPER_BOUND := 4
  INITIAL_STATE := 0
  TEST_PUBLIC_KEY := false
  io_exchange := fun _ m _ buf =>
    match m with
    | .IO_RETURN_AFTER_TX => .ok (0, buf)
    | _ => .ok (3, [0xE0, 0x01, 0x07, 0, 0, 0, 0, 0])
  dispatch_command := fun _ _ c _ _ => .reply c [0x90, 0x00] 2 (fun r => .ret r c)
  raises := fun _ _ => none

/-- The boot state with a request outstanding. -/
def state_received : State := { state_boot with io_state := .RECEIVED }

/-- The boot state with the user being asked. -/
def state_waiting : State := { state_boot with io_state := .WAITING_USER }

/-- An environment without faults in which every receiving exchange delivers the two
byte frame `E0 00`, a valid class and a valid opcode with no payload, and every
handler returns 0 without replying. -/
def env_header_only : Env where
  COMMAND_UPPER_BOUND := 4
  INITIAL_STATE := 0
  TEST_PUBLIC_KEY := false
  io_exchange := fun _ _ _ _ => .ok (2, [0xE0, 0x00, 0, 0, 0, 0, 0, 0])
  dispatch_command := fun _ _ c _ _ => .ret 0 c
  raises := fun _ _ => none

/-- Like `env_echo`, but every receiving exchange delivers the one byte frame `E0`. -/
def env_one_byte : Env :=
  { env_echo with io_exchange := fun _ _ _ _ => .ok (1, [0xE0, 0x01, 0x07, 0, 0, 0, 0, 0]) }

/-- Like `env_echo`, but every receiving exchange delivers the frame `E1 01 07`, whose
class byte is wrong. -/
def env_wrong_class : Env :=
  { env_echo with io_exchange := fun _ _ _ _ => .ok (3, [0xE1, 0x01, 0x07, 0, 0, 0, 0, 0]) }

/-- Like `env_echo`, but every receiving exchange delivers the frame `E0 04 07`, whose
opcode is the upper bound itself. -/
def env_high_opcode : Env :=
  { env_echo with io_exchange := fun _ _ _ _ => .ok (3, [0xE0, 0x04, 0x07, 0, 0, 0, 0, 0]) }

/-- An environment without faults in which every receiving exchange delivers the
frame `E0 01 07` and every handler calls the reply function twice, first on `90 00`
and then on `6A 80`, and returns 0 whatever the two calls returned. -/
def env_double_reply : Env :=
  { env_echo with
    dispatch_command := fun _ _ c _ _ =>
      .reply c [0x90, 0x00] 2 (fun _ => .reply c [0x6A, 0x80] 2 (fun _ => .ret 0 c)) }

/-- Like `env_echo`, but every handler returns the status -5 without replying. -/
def env_failing_handler : Env :=
  { env_echo with dispatch_command := fun _ _ c _ _ => .ret (-5) c }

/-- Like `env_echo`, but every exchange returns -1. -/
def env_transport_error : Env :=
  { env_echo with io_exchange := fun _ _ _ buf => .ok (-1, buf) }

/-- The boot state with the two byte reply `90 00` staged. -/
def state_staged : State :=
  { state_boot with G_io_apdu_buffer := [0x90, 0x00, 0, 0, 0, 0, 0, 0], output_length := 2 }

/-- Like `env_echo`, but only the handler of the first command replies (`90 00`); the
handlers of all later commands return 0 without replying. -/
def env_reply_once : Env :=
  { env_echo with
    dispatch_command := fun tr _ c _ _ =>
      if (dispatch_calls tr).isEmpty then .reply c [0x90, 0x00] 2 (fun r => .ret r c)
      else .ret 0 c }

/-- The state `state_waiting` with a stale `output_length` of 5. -/
def state_stale : State := { state_waiting with output_length := 5 }

/-- Like `env_echo`, but every exchange throws `EXCEPTION_IO_RESET`. -/
def env_io_reset : Env :=
  { env_echo with io_exchange := fun _ _ _ _ => .raised .EXCEPTION_IO_RESET }

/-- Like `env_echo`, but every exchange throws a fault other than
`EXCEPTION_IO_RESET`. -/
def env_other_fault : Env :=
  { env_echo with io_exchange := fun _ _ _ _ => .raised (.OTHER 6) }

/-- Like `env_echo`, but every handler sets the mode flag of the context to 7 and
returns the status -1 without replying. -/
def env_set_state : Env :=
  { env_echo with
    dispatch_command := fun _ _ c _ _ => .ret (-1) { c with state := 7 } }

/-- The boot state with a context left behind by earlier commands. -/
def state_used : State :=
  { state_boot with ctx := { ledger_public_key := [1], state := 7 } }

/-! ## Properties -/

/-! ### The transport call -/

theorem io_exchange_io_state (env : Env) (m : ExchangeMode) (l : Int) (s : State) :
    (io_exchange env m l s).2.io_state = s.io_state := by
  unfold io_exchange
  cases h : env.io_exchange s.trace m l s.G_io_apdu_buffer <;> simp

theorem io_exchange_output_length (env : Env) (m : ExchangeMode) (l : Int) (s : State) :
    (io_exchange env m l s).2.output_length = s.output_length := by
  unfold io_exchange
  cases h : env.io_exchange s.trace m l s.G_io_apdu_buffer <;> simp

theorem io_exchange_ctx (env : Env) (m : ExchangeMode) (l : Int) (s : State) :
    (io_exchange env m l s).2.ctx = s.ctx := by
  unfold io_exchange
  cases h : env.io_exchange s.trace m l s.G_io_apdu_buffer <;> simp

theorem io_exchange_trace (env : Env) (m : ExchangeMode) (l : Int) (s : State) :
    (io_exchange env m l s).2.trace
      = s.trace ++ [Event.io_exchange m l (s.G_io_apdu_buffer.take l.toNat)] := by
  unfold io_exchange
  cases h : env.io_exchange s.trace m l s.G_io_apdu_buffer <;> simp

theorem io_exchange_ok_of_env (env : Env) (m : ExchangeMode) (l : Int) (s : State)
    (r : Int) (buf : List Nat)
    (h : env.io_exchange s.trace m l s.G_io_apdu_buffer = .ok (r, buf)) :
    io_exchange env m l s = (.ok r, { s with
      G_io_apdu_buffer := buf,
      trace := s.trace ++ [Event.io_exchange m l (s.G_io_apdu_buffer.take l.toNat)] }) := by
  unfold io_exchange
  simp [h]

theorem io_exchange_raised_of_env (env : Env) (m : ExchangeMode) (l : Int) (s : State)
    (f : Fault) (h : env.io_exchange s.trace m l s.G_io_apdu_buffer = .raised f) :
    io_exchange env m l s = (.raised f, { s with
      trace := s.trace ++ [Event.io_exchange m l (s.G_io_apdu_buffer.take l.toNat)] }) := by
  unfold io_exchange
  simp [h]

/-! ### `recv_apdu` and `send_apdu`, state by state -/

theorem recv_apdu_READY (env : Env) (s : State) (h : s.io_state = .READY) :
    recv_apdu env s = io_exchange env .CHANNEL_APDU s.output_length
      { s with io_state := .RECEIVED, trace := s.trace ++ [Event.recv_apdu] } := by
  simp [recv_apdu, h]

theorem recv_apdu_RECEIVED (env : Env) (s : State) (h : s.io_state = .RECEIVED) :
    recv_apdu env s = io_exchange env .IO_ASYNCH_REPLY s.output_length
      { s with io_state := .WAITING_USER, trace := s.trace ++ [Event.recv_apdu] } := by
  simp [recv_apdu, h]

theorem recv_apdu_WAITING_USER (env : Env) (s : State) (h : s.io_state = .WAITING_USER) :
    recv_apdu env s
      = (.ok (-1), { s with io_state := .READY, trace := s.trace ++ [Event.recv_apdu] }) := by
  simp [recv_apdu, h]

theorem send_apdu_READY (env : Env) (b : List Nat) (n : Nat) (s : State)
    (h : s.io_state = .READY) :
    send_apdu env b n s = (.ok (-1), { s with
      G_io_apdu_buffer := os_memmove s.G_io_apdu_buffer b n,
      output_length := int_of_unsigned n,
      trace := s.trace ++ [Event.send_apdu b n] }) := by
  simp [send_apdu, h]

theorem send_apdu_RECEIVED (env : Env) (b : List Nat) (n : Nat) (s : State)
    (h : s.io_state = .RECEIVED) :
    send_apdu env b n s = (.ok 0, { s with
      G_io_apdu_buffer := os_memmove s.G_io_apdu_buffer b n,
      output_length := int_of_unsigned n,
      io_state := .READY,
      trace := s.trace ++ [Event.send_apdu b n] }) := by
  simp [send_apdu, h]

theorem send_apdu_WAITING_USER (env : Env) (b : List Nat) (n : Nat) (s : State)
    (h : s.io_state = .WAITING_USER) :
    send_apdu env b n s =
      match io_exchange env .IO_RETURN_AFTER_TX (int_of_unsigned n) { s with
          G_io_apdu_buffer := os_memmove s.G_io_apdu_buffer b n,
          output_length := int_of_unsigned n,
          trace := s.trace ++ [Event.send_apdu b n] } with
      | (.raised f, s2) => (.raised f, s2)
      | (.ok _, s2) => (.ok 0, { s2 with output_length := 0, io_state := .READY }) := by
  simp [send_apdu, h]

/-! ### The transition table -/

theorem recv_apdu_follows_table (env : Env) (s : State) :
    (recv_apdu env s).2.io_state = table_4_1 s.io_state .recv := by
  cases h : s.io_state
  · rw [recv_apdu_READY env s h, io_exchange_io_state]; rfl
  · rw [recv_apdu_RECEIVED env s h, io_exchange_io_state]; rfl
  · rw [recv_apdu_WAITING_USER env s h]; rfl

theorem send_apdu_follows_table (env : Env) (b : List Nat) (n : Nat) (s : State) (v : Int)
    (hv : (send_apdu env b n s).1 = .ok v) :
    (send_apdu env b n s).2.io_state = table_4_1 s.io_state (.send b n) := by
  cases h : s.io_state
  · rw [send_apdu_READY env b n s h]; simp [h, table_4_1]
  · rw [send_apdu_RECEIVED env b n s h]; rfl
  · rw [send_apdu_WAITING_USER env b n s h] at hv ⊢
    rcases hx : io_exchange env .IO_RETURN_AFTER_TX (int_of_unsigned n) { s with
          G_io_apdu_buffer := os_memmove s.G_io_apdu_buffer b n,
          output_length := int_of_unsigned n,
          trace := s.trace ++ [Event.send_apdu b n] } with ⟨r, s2⟩
    rw [hx] at hv
    cases r with
    | ok w => rfl
    | raised f => simp at hv

theorem do_call_follows_table (env : Env) (c : ApduCall) (s : State) (v : Int)
    (hv : (do_call env c s).1 = .ok v) :
    (do_call env c s).2.io_state = table_4_1 s.io_state c := by
  cases c with
  | recv => exact recv_apdu_follows_table env s
  | send b n => exact send_apdu_follows_table env b n s v hv

theorem run_calls_follows_table (env : Env) (calls : List ApduCall) :
    ∀ (s : State) (rs : List Int), (run_calls env calls s).1 = .ok rs →
      (run_calls env calls s).2.io_state = calls.foldl table_4_1 s.io_state := by
  induction calls with
  | nil => intro s rs _; rfl
  | cons c cs ih =>
    intro s rs hrs
    have hstep := do_call_follows_table env c s
    rw [run_calls] at hrs ⊢
    rcases hc : do_call env c s with ⟨r, s1⟩
    rw [hc] at hrs hstep
    cases r with
    | raised f => simp at hrs
    | ok v =>
      have h1 : s1.io_state = table_4_1 s.io_state c := hstep v rfl
      have ih1 := ih s1
      rcases hcs : run_calls env cs s1 with ⟨r2, s2⟩
      rw [hcs] at ih1
      simp only [hcs] at hrs ⊢
      cases r2 with
      | raised f => simp at hrs
      | ok ws =>
        simp only [List.foldl_cons]
        rw [← h1]
        exact ih1 ws rfl

theorem do_call_returns (env : Env)
    (hok : ∀ tr m l b, ∃ v, env.io_exchange tr m l b = .ok v)
    (c : ApduCall) (s : State) : ∃ r, (do_call env c s).1 = .ok r := by
  have hx : ∀ m l (s0 : State), ∃ r, (io_exchange env m l s0).1 = .ok r := by
    intro m l s0
    obtain ⟨⟨r, buf⟩, hv⟩ := hok s0.trace m l s0.G_io_apdu_buffer
    exact ⟨r, by rw [io_exchange_ok_of_env env m l s0 r buf hv]⟩
  cases c with
  | recv =>
    simp only [do_call]
    cases h : s.io_state
    · rw [recv_apdu_READY env s h]; exact hx _ _ _
    · rw [recv_apdu_RECEIVED env s h]; exact hx _ _ _
    · rw [recv_apdu_WAITING_USER env s h]; exact ⟨-1, rfl⟩
  | send b n =>
    simp only [do_call]
    cases h : s.io_state
    · rw [send_apdu_READY env b n s h]; exact ⟨-1, rfl⟩
    · rw [send_apdu_RECEIVED env b n s h]; exact ⟨0, rfl⟩
    · rw [send_apdu_WAITING_USER env b n s h]
      obtain ⟨r, hr⟩ := hx .IO_RETURN_AFTER_TX (int_of_unsigned n) { s with
          G_io_apdu_buffer := os_memmove s.G_io_apdu_buffer b n,
          output_length := int_of_unsigned n,
          trace := s.trace ++ [Event.send_apdu b n] }
      rcases hx2 : io_exchange env .IO_RETURN_AFTER_TX (int_of_unsigned n) { s with
          G_io_apdu_buffer := os_memmove s.G_io_apdu_buffer b n,
          output_length := int_of_unsigned n,
          trace := s.trace ++ [Event.send_apdu b n] } with ⟨r2, s2⟩
      rw [hx2] at hr
      cases r2 with
      | ok w => exact ⟨0, rfl⟩
      | raised f => simp at hr

theorem run_calls_returns (env : Env)
    (hok : ∀ tr m l b, ∃ v, env.io_exchange tr m l b = .ok v)
    (calls : List ApduCall) : ∀ s : State, ∃ rs, (run_calls env calls s).1 = .ok rs := by
  induction calls with
  | nil => intro s; exact ⟨[], rfl⟩
  | cons c cs ih =>
    intro s
    obtain ⟨r, hr⟩ := do_call_returns env hok c s
    rw [run_calls]
    rcases hc : do_call env c s with ⟨r1, s1⟩
    rw [hc] at hr
    cases r1 with
    | raised f => simp at hr
    | ok v =>
      obtain ⟨rs, hrs⟩ := ih s1
      rcases hcs : run_calls env cs s1 with ⟨r2, s2⟩
      rw [hcs] at hrs
      cases r2 with
      | raised f => simp at hrs
      | ok ws => exact ⟨v :: ws, by simp only [hcs]⟩

/-- C1. The state after a call is the one the table of section 4.1 gives.
`recv_apdu` follows the table from every state (READY to RECEIVED, RECEIVED to
WAITING_USER), `send_apdu` follows it from every state and for every buffer and
length whenever it returns (RECEIVED to READY, WAITING_USER to READY), and after a
sequence of calls started in READY, all of which return, the state is the fold of
the table over the sequence. Every call returns when the transport never throws. -/
theorem C1_state_follows_table (env : Env) :
    (∀ s : State, (recv_apdu env s).2.io_state = table_4_1 s.io_state .recv) ∧
    (∀ (s : State) (b : List Nat) (n : Nat) (v : Int), (send_apdu env b n s).1 = .ok v →
      (send_apdu env b n s).2.io_state = table_4_1 s.io_state (.send b n)) ∧
    (table_4_1 .READY .recv = .RECEIVED ∧ table_4_1 .RECEIVED .recv = .WAITING_USER ∧
      ∀ b n, table_4_1 .RECEIVED (.send b n) = .READY ∧
        table_4_1 .WAITING_USER (.send b n) = .READY) ∧
    (∀ (calls : List ApduCall) (s : State) (rs : List Int), s.io_state = .READY →
      (run_calls env calls s).1 = .ok rs →
      (run_calls env calls s).2.io_state = calls.foldl table_4_1 .READY) ∧
    ((∀ tr m l b, ∃ v, env.io_exchange tr m l b = .ok v) →
      ∀ (calls : List ApduCall) (s : State), ∃ rs, (run_calls env calls s).1 = .ok rs) := by
  refine ⟨recv_apdu_follows_table env, ?_, ?_, ?_, ?_⟩
  · intro s b n v hv
    exact send_apdu_follows_table env b n s v hv
  · exact ⟨rfl, rfl, fun _ _ => ⟨rfl, rfl⟩⟩
  · intro calls s rs h0 hrs
    rw [← h0]
    exact run_calls_follows_table env calls s rs hrs
  · intro hok calls s
    exact run_calls_returns env hok calls s

/-- C1 at a concrete run: five calls on the boot state, with an environment that
never throws. -/
theorem C1_state_follows_table_witness :
    (send_apdu env_echo [1, 2] 2 state_waiting).1 = .ok 0 ∧
    (send_apdu env_echo [1, 2] 2 state_waiting).2.io_state = .READY ∧
    state_boot.io_state = .READY ∧
    (run_calls env_echo [.recv, .send [1, 2] 2, .recv, .recv, .send [3] 1] state_boot).1
      = .ok [3, 0, 3, 3, 0] ∧
    (run_calls env_echo [.recv, .send [1, 2] 2, .recv, .recv, .send [3] 1]
      state_boot).2.io_state = .READY ∧
    (∃ rs, (run_calls env_echo [.recv, .recv, .recv, .send [] 0] state_boot).1 = .ok rs) :=
  ⟨by decide,
   (C1_state_follows_table env_echo).2.1 state_waiting [1, 2] 2 0 (by decide),
   rfl, by decide,
   (C1_state_follows_table env_echo).2.2.2.1 _ state_boot [3, 0, 3, 3, 0] rfl (by decide),
   (C1_state_follows_table env_echo).2.2.2.2
     (by intro tr m l b; cases m <;> exact ⟨_, rfl⟩) _ state_boot⟩

/-! ### Invalid calls -/

theorem send_apdu_minus_one_only_in_READY (env : Env) (b : List Nat) (n : Nat) (s : State)
    (hv : (send_apdu env b n s).1 = .ok (-1)) : s.io_state = .READY := by
  cases h : s.io_state
  · rfl
  · rw [send_apdu_RECEIVED env b n s h] at hv
    simp at hv
  · rw [send_apdu_WAITING_USER env b n s h] at hv
    rcases hx : io_exchange env .IO_RETURN_AFTER_TX (int_of_unsigned n) { s with
          G_io_apdu_buffer := os_memmove s.G_io_apdu_buffer b n,
          output_length := int_of_unsigned n,
          trace := s.trace ++ [Event.send_apdu b n] } with ⟨r, s2⟩
    rw [hx] at hv
    cases r with
    | ok w => simp at hv
    | raised f => simp at hv

theorem send_apdu_WAITING_USER_result (env : Env) (b : List Nat) (n : Nat) (s : State)
    (h : s.io_state = .WAITING_USER) :
    (send_apdu env b n s).1 =
      match env.io_exchange (s.trace ++ [Event.send_apdu b n]) .IO_RETURN_AFTER_TX
          (int_of_unsigned n) (os_memmove s.G_io_apdu_buffer b n) with
      | .ok _ => .ok 0
      | .raised f => .raised f := by
  rw [send_apdu_WAITING_USER env b n s h]
  unfold io_exchange
  cases hx : env.io_exchange (s.trace ++ [Event.send_apdu b n]) .IO_RETURN_AFTER_TX
      (int_of_unsigned n) (os_memmove s.G_io_apdu_buffer b n) <;> simp [hx]

/-- C2. The two calls the table marks invalid fail with -1 and end in READY without
any transport exchange: `recv_apdu` in WAITING_USER and `send_apdu` in READY add only
their own entry to the call log. Conversely `send_apdu` returns -1 only in READY: in
RECEIVED it returns 0 for every buffer and length, and in WAITING_USER it returns 0
for every buffer and length unless the transport throws during the final exchange,
in which case it does not return at all. -/
theorem C2_invalid_calls_fail_and_end_in_READY (env : Env) (s : State) (b : List Nat)
    (n : Nat) :
    (s.io_state = .WAITING_USER →
      (recv_apdu env s).1 = .ok (-1) ∧ (recv_apdu env s).2.io_state = .READY ∧
      (recv_apdu env s).2.trace = s.trace ++ [Event.recv_apdu]) ∧
    (s.io_state = .READY →
      (send_apdu env b n s).1 = .ok (-1) ∧ (send_apdu env b n s).2.io_state = .READY ∧
      (send_apdu env b n s).2.trace = s.trace ++ [Event.send_apdu b n]) ∧
    ((send_apdu env b n s).1 = .ok (-1) → s.io_state = .READY) ∧
    (s.io_state = .RECEIVED → (send_apdu env b n s).1 = .ok 0) ∧
    (s.io_state = .WAITING_USER →
      (send_apdu env b n s).1 =
        match env.io_exchange (s.trace ++ [Event.send_apdu b n]) .IO_RETURN_AFTER_TX
            (int_of_unsigned n) (os_memmove s.G_io_apdu_buffer b n) with
        | .ok _ => .ok 0
        | .raised f => .raised f) := by
  refine ⟨?_, ?_, send_apdu_minus_one_only_in_READY env b n s, ?_,
    send_apdu_WAITING_USER_result env b n s⟩
  · intro h
    rw [recv_apdu_WAITING_USER env s h]
    exact ⟨rfl, rfl, rfl⟩
  · intro h
    rw [send_apdu_READY env b n s h]
    exact ⟨rfl, h, rfl⟩
  · intro h
    rw [send_apdu_RECEIVED env b n s h]

/-- C2 at concrete states: an invalid receive, an invalid send, and the two valid
sends, which return 0. -/
theorem C2_invalid_calls_fail_and_end_in_READY_witness :
    (state_waiting.io_state = .WAITING_USER ∧
      (recv_apdu env_echo state_waiting).1 = .ok (-1) ∧
      (recv_apdu env_echo state_waiting).2.io_state = .READY ∧
      (recv_apdu env_echo state_waiting).2.trace = [Event.recv_apdu]) ∧
    (state_boot.io_state = .READY ∧
      (send_apdu env_echo [7, 8, 9] 3 state_boot).1 = .ok (-1) ∧
      (send_apdu env_echo [7, 8, 9] 3 state_boot).2.io_state = .READY ∧
      (send_apdu env_echo [7, 8, 9] 3 state_boot).2.trace = [Event.send_apdu [7, 8, 9] 3]) ∧
    (state_received.io_state = .RECEIVED ∧
      (send_apdu env_echo [7, 8, 9] 3 state_received).1 = .ok 0) ∧
    (send_apdu env_echo [7, 8, 9] 3 state_waiting).1 = .ok 0 :=
  ⟨⟨rfl, (C2_invalid_calls_fail_and_end_in_READY env_echo state_waiting [] 0).1 rfl⟩,
   ⟨rfl, (C2_invalid_calls_fail_and_end_in_READY env_echo state_boot [7, 8, 9] 3).2.1 rfl⟩,
   ⟨rfl, (C2_invalid_calls_fail_and_end_in_READY env_echo state_received [7, 8, 9] 3).2.2.2.1
     rfl⟩,
   (C2_invalid_calls_fail_and_end_in_READY env_echo state_waiting [7, 8, 9] 3).2.2.2.2 rfl⟩

/-! ### What each function adds to the call log -/

theorem recv_apdu_trace (env : Env) (s : State) :
    (recv_apdu env s).2.trace = s.trace ++ Event.recv_apdu ::
      (match s.io_state with
        | .READY => [Event.io_exchange .CHANNEL_APDU s.output_length
            (s.G_io_apdu_buffer.take s.output_length.toNat)]
        | .RECEIVED => [Event.io_exchange .IO_ASYNCH_REPLY s.output_length
            (s.G_io_apdu_buffer.take s.output_length.toNat)]
        | .WAITING_USER => []) := by
  cases h : s.io_state
  · rw [recv_apdu_READY env s h, io_exchange_trace]; simp
  · rw [recv_apdu_RECEIVED env s h, io_exchange_trace]; simp
  · rw [recv_apdu_WAITING_USER env s h]

theorem send_apdu_trace (env : Env) (b : List Nat) (n : Nat) (s : State) :
    (send_apdu env b n s).2.trace = s.trace ++ Event.send_apdu b n ::
      (match s.io_state with
        | .READY => []
        | .RECEIVED => []
        | .WAITING_USER => [Event.io_exchange .IO_RETURN_AFTER_TX (int_of_unsigned n)
            ((os_memmove s.G_io_apdu_buffer b n).take (int_of_unsigned n).toNat)]) := by
  cases h : s.io_state
  · rw [send_apdu_READY env b n s h]
  · rw [send_apdu_RECEIVED env b n s h]
  · rw [send_apdu_WAITING_USER env b n s h]
    have ht := io_exchange_trace env .IO_RETURN_AFTER_TX (int_of_unsigned n) { s with
          G_io_apdu_buffer := os_memmove s.G_io_apdu_buffer b n,
          output_length := int_of_unsigned n,
          trace := s.trace ++ [Event.send_apdu b n] }
    rcases hx : io_exchange env .IO_RETURN_AFTER_TX (int_of_unsigned n) { s with
          G_io_apdu_buffer := os_memmove s.G_io_apdu_buffer b n,
          output_length := int_of_unsigned n,
          trace := s.trace ++ [Event.send_apdu b n] } with ⟨r, s2⟩
    rw [hx] at ht
    cases r <;> simp at ht <;> simp [ht]

theorem ext_call_trace (env : Env) (c : ExtCall) (s : State) :
    (ext_call env c s).2.trace = s.trace ++ [Event.call c] := by
  unfold ext_call
  cases env.raises s.trace c <;> rfl

theorem dispatch_calls_recv_apdu (env : Env) (s : State) :
    dispatch_calls (recv_apdu env s).2.trace = dispatch_calls s.trace := by
  rw [recv_apdu_trace]
  cases s.io_state <;> simp [dispatch_calls, is_dispatch]

theorem reply_calls_recv_apdu (env : Env) (s : State) :
    reply_calls (recv_apdu env s).2.trace = reply_calls s.trace := by
  rw [recv_apdu_trace]
  cases s.io_state <;> simp [reply_calls, is_reply]

theorem dispatch_calls_send_apdu (env : Env) (b : List Nat) (n : Nat) (s : State) :
    dispatch_calls (send_apdu env b n s).2.trace = dispatch_calls s.trace := by
  rw [send_apdu_trace]
  cases s.io_state <;> simp [dispatch_calls, is_dispatch]

theorem dispatch_calls_ext_call (env : Env) (c : ExtCall) (s : State) :
    dispatch_calls (ext_call env c s).2.trace = dispatch_calls s.trace := by
  rw [ext_call_trace]
  simp [dispatch_calls, is_dispatch]

/-! ### The dispatch gate -/

theorem app_main_body_of_recv_minus_one (env : Env) (s s1 : State)
    (hrecv : recv_apdu env s = (.ok (-1), s1)) :
    app_main_body env s = (.returned, s1) := by
  simp [app_main_body, hrecv]

theorem app_main_body_of_rejected (env : Env) (s s1 : State) (len : Int)
    (hrecv : recv_apdu env s = (.ok len, s1))
    (hbad : len ≤ (OFFSET_INS : Int) ∨ s1.G_io_apdu_buffer.getD OFFSET_CLA 0 ≠ CLA ∨
      s1.G_io_apdu_buffer.getD OFFSET_INS 0 ≥ env.COMMAND_UPPER_BOUND) :
    app_main_body env s = (.returned, s1) := by
  unfold app_main_body
  rw [hrecv]
  simp only
  by_cases h1 : len = -1
  · rw [if_pos h1]
  · rw [if_neg h1, if_pos hbad]

theorem app_main_loop_of_returned (env : Env) (s s1 : State) (fuel : Nat)
    (h : app_main_body env s = (.returned, s1)) :
    app_main_loop env (fuel + 1) s = (.returned, s1) := by
  rw [app_main_loop, h]

theorem dispatch_calls_run_handler (env : Env) (h : Handler) :
    ∀ s : State, dispatch_calls (run_handler (send_apdu env) h s).2.trace
      = dispatch_calls s.trace := by
  induction h with
  | ret status c => intro s; rfl
  | raise f c => intro s; rfl
  | reply c b n k ih =>
    intro s
    rw [run_handler]
    have hs := dispatch_calls_send_apdu env b n { s with ctx := c }
    rcases hx : send_apdu env b n { s with ctx := c } with ⟨r, s1⟩
    rw [hx] at hs
    cases r with
    | raised f => exact hs
    | ok v => simp only; rw [ih v s1]; exact hs

theorem dispatch_calls_dispatch_command (env : Env) (ins : Nat) (p : List Nat) (l : Int)
    (s : State) :
    dispatch_calls (dispatch_command env ins p l (send_apdu env) s).2.trace
      = dispatch_calls s.trace ++ [Event.dispatch_command ins s.ctx p l] := by
  unfold dispatch_command
  rw [dispatch_calls_run_handler]
  simp [dispatch_calls, is_dispatch]

theorem dispatch_calls_idle_block (env : Env) (s : State) :
    dispatch_calls (idle_block env s).2.trace = dispatch_calls s.trace := by
  unfold idle_block
  have h1 := dispatch_calls_ext_call env .ui_idle s
  rcases hx : ext_call env .ui_idle s with ⟨r, s1⟩
  rw [hx] at h1
  cases r with
  | raised f => exact h1
  | ok v =>
    have h2 := dispatch_calls_ext_call env .create_payin_transaction s1
    rcases hy : ext_call env .create_payin_transaction s1 with ⟨r2, s2⟩
    rw [hy] at h2
    simp only at h1 h2
    cases r2 with
    | raised f => simp only [hy]; rw [h2, h1]
    | ok w => simp only [hy]; rw [h2, h1]

/-- The part of `app_main_body` after a frame has passed the gate. -/
theorem app_main_body_of_accepted (env : Env) (s s1 : State) (len : Int)
    (hrecv : recv_apdu env s = (.ok len, s1))
    (hlen : (OFFSET_INS : Int) < len)
    (hcla : s1.G_io_apdu_buffer.getD OFFSET_CLA 0 = CLA)
    (hins : s1.G_io_apdu_buffer.getD OFFSET_INS 0 < env.COMMAND_UPPER_BOUND) :
    app_main_body env s =
      match dispatch_command env (s1.G_io_apdu_buffer.getD OFFSET_INS 0)
          (s1.G_io_apdu_buffer.drop OFFSET_CDATA) (len - (OFFSET_CDATA : Int))
          (send_apdu env) s1 with
      | (.raised f, s2) => (.raised f, s2)
      | (.ok status, s2) =>
        if status < 0 then (.returned, s2)
        else if s2.ctx.state = env.INITIAL_STATE then idle_block env s2
        else (.again, s2) := by
  have h1 : ¬ len = -1 := by
    intro h
    rw [h] at hlen
    simp [OFFSET_INS] at hlen
  have h2 : ¬ (len ≤ (OFFSET_INS : Int) ∨ s1.G_io_apdu_buffer.getD OFFSET_CLA 0 ≠ CLA ∨
      s1.G_io_apdu_buffer.getD OFFSET_INS 0 ≥ env.COMMAND_UPPER_BOUND) := by
    rintro (h | h | h)
    · omega
    · exact h hcla
    · omega
  unfold app_main_body
  rw [hrecv]
  simp only
  rw [if_neg h1, if_neg h2]

theorem dispatch_calls_app_main_body (env : Env) (s : State) :
    ∃ new, dispatch_calls (app_main_body env s).2.trace = dispatch_calls s.trace ++ new ∧
      ∀ e ∈ new, ∃ ins c p l, e = Event.dispatch_command ins c p l ∧
        ins < env.COMMAND_UPPER_BOUND := by
  have hr := dispatch_calls_recv_apdu env s
  rcases hrecv : recv_apdu env s with ⟨r, s1⟩
  rw [hrecv] at hr
  simp only at hr
  cases r with
  | raised f =>
    refine ⟨[], ?_, by simp⟩
    simp [app_main_body, hrecv, hr]
  | ok len =>
    by_cases hbad : len ≤ (OFFSET_INS : Int) ∨ s1.G_io_apdu_buffer.getD OFFSET_CLA 0 ≠ CLA ∨
        s1.G_io_apdu_buffer.getD OFFSET_INS 0 ≥ env.COMMAND_UPPER_BOUND
    · refine ⟨[], ?_, by simp⟩
      rw [app_main_body_of_rejected env s s1 len hrecv hbad]
      simp [hr]
    · have hlen : (OFFSET_INS : Int) < len := by
        by_contra h
        exact hbad (Or.inl (by omega))
      have hcla : s1.G_io_apdu_buffer.getD OFFSET_CLA 0 = CLA := by
        by_contra h
        exact hbad (Or.inr (Or.inl h))
      have hins : s1.G_io_apdu_buffer.getD OFFSET_INS 0 < env.COMMAND_UPPER_BOUND := by
        by_contra h
        exact hbad (Or.inr (Or.inr (by omega)))
      refine ⟨[Event.dispatch_command (s1.G_io_apdu_buffer.getD OFFSET_INS 0) s1.ctx
        (s1.G_io_apdu_buffer.drop OFFSET_CDATA) (len - (OFFSET_CDATA : Int))], ?_, ?_⟩
      · rw [app_main_body_of_accepted env s s1 len hrecv hlen hcla hins]
        have hd := dispatch_calls_dispatch_command env (s1.G_io_apdu_buffer.getD OFFSET_INS 0)
          (s1.G_io_apdu_buffer.drop OFFSET_CDATA) (len - (OFFSET_CDATA : Int)) s1
        rcases hx : dispatch_command env (s1.G_io_apdu_buffer.getD OFFSET_INS 0)
          (s1.G_io_apdu_buffer.drop OFFSET_CDATA) (len - (OFFSET_CDATA : Int))
          (send_apdu env) s1 with ⟨r2, s2⟩
        rw [hx] at hd
        simp only at hd
        rw [hr] at hd
        cases r2 with
        | raised f => exact hd
        | ok status =>
          simp only
          split
          · exact hd
          · split
            · rw [dispatch_calls_idle_block]; exact hd
            · exact hd
      · intro e he
        simp only [List.mem_singleton] at he
        exact ⟨_, _, _, _, he, hins⟩

theorem dispatch_calls_app_main_loop (env : Env) (fuel : Nat) :
    ∀ s : State, ∃ new,
      dispatch_calls (app_main_loop env fuel s).2.trace = dispatch_calls s.trace ++ new ∧
      ∀ e ∈ new, ∃ ins c p l, e = Event.dispatch_command ins c p l ∧
        ins < env.COMMAND_UPPER_BOUND := by
  induction fuel with
  | zero => intro s; exact ⟨[], by simp [app_main_loop], by simp⟩
  | succ k ih =>
    intro s
    obtain ⟨new1, h1, hb1⟩ := dispatch_calls_app_main_body env s
    rw [app_main_loop]
    rcases hx : app_main_body env s with ⟨r, s1⟩
    rw [hx] at h1
    cases r with
    | raised f => exact ⟨new1, h1, hb1⟩
    | returned => exact ⟨new1, h1, hb1⟩
    | again =>
      obtain ⟨new2, h2, hb2⟩ := ih s1
      refine ⟨new1 ++ new2, ?_, ?_⟩
      · simp only at h1 ⊢
        rw [h2, h1, List.append_assoc]
      · intro e he
        rcases List.mem_append.mp he with h | h
        · exact hb1 e h
        · exact hb2 e h

theorem dispatch_calls_app_main (env : Env) (fuel : Nat) (s : State) :
    ∃ new, dispatch_calls (app_main env fuel s).2.trace = dispatch_calls s.trace ++ new ∧
      ∀ e ∈ new, ∃ ins c p l, e = Event.dispatch_command ins c p l ∧
        ins < env.COMMAND_UPPER_BOUND := by
  unfold app_main init_application_context
  have h1 := dispatch_calls_ext_call env
    (.cx_ecfp_init_public_key (LedgerPubKey env.TEST_PUBLIC_KEY)) s
  rcases hx : ext_call env (.cx_ecfp_init_public_key (LedgerPubKey env.TEST_PUBLIC_KEY)) s
    with ⟨r, s1⟩
  rw [hx] at h1
  simp only at h1
  cases r with
  | raised f => exact ⟨[], by simp [hx, h1], by simp⟩
  | ok v =>
    simp only [hx]
    have h2 := dispatch_calls_ext_call env .ui_idle { s1 with
      ctx := { ledger_public_key := LedgerPubKey env.TEST_PUBLIC_KEY,
               state := env.INITIAL_STATE } }
    rcases hy : ext_call env .ui_idle { s1 with
      ctx := { ledger_public_key := LedgerPubKey env.TEST_PUBLIC_KEY,
               state := env.INITIAL_STATE } } with ⟨r2, s2⟩
    rw [hy] at h2
    simp only at h2
    cases r2 with
    | raised f => exact ⟨[], by simp [hy, h2, h1], by simp⟩
    | ok w =>
      simp only [hy]
      obtain ⟨new, h3, hb⟩ := dispatch_calls_app_main_loop env fuel
        { s2 with output_length := 0, io_state := .READY }
      refine ⟨new, ?_, hb⟩
      rw [h3]
      simp only
      rw [h2, h1]

theorem dispatch_calls_of_recv (env : Env) (s s1 : State) (r : Ret Int)
    (hrecv : recv_apdu env s = (r, s1)) :
    dispatch_calls s1.trace = dispatch_calls s.trace := by
  have h := dispatch_calls_recv_apdu env s
  rw [hrecv] at h
  exact h

theorem reply_calls_of_recv (env : Env) (s s1 : State) (r : Ret Int)
    (hrecv : recv_apdu env s = (r, s1)) :
    reply_calls s1.trace = reply_calls s.trace := by
  have h := reply_calls_recv_apdu env s
  rw [hrecv] at h
  exact h

/-- C3, as the code has it. At every pass through the loop of `app_main`, if
`recv_apdu` returns a frame length that is at most `OFFSET_INS` (1: the frame does not
reach the opcode byte), the pass ends `app_main`: the function returns in the state
`recv_apdu` left, and no call of `dispatch_command` has been added to the log. -/
theorem C3_frame_up_to_OFFSET_INS_rejected (env : Env) (s s1 : State) (len : Int)
    (hrecv : recv_apdu env s = (.ok len, s1))
    (hlen : len ≤ (OFFSET_INS : Int)) :
    app_main_body env s = (.returned, s1) ∧
    (∀ fuel, app_main_loop env (fuel + 1) s = (.returned, s1)) ∧
    dispatch_calls s1.trace = dispatch_calls s.trace := by
  have hb := app_main_body_of_rejected env s s1 len hrecv (Or.inl hlen)
  exact ⟨hb, fun fuel => app_main_loop_of_returned env s s1 fuel hb,
    dispatch_calls_of_recv env s s1 _ hrecv⟩

/-- C3 at a concrete frame: the one byte frame `E0` ends `app_main` without a
dispatch. -/
theorem C3_frame_up_to_OFFSET_INS_rejected_witness :
    (recv_apdu env_one_byte state_boot).1 = .ok 1 ∧
    (1 : Int) ≤ (OFFSET_INS : Int) ∧
    (app_main_loop env_one_byte 1 state_boot).1 = .returned ∧
    dispatch_calls (app_main_loop env_one_byte 1 state_boot).2.trace = [] := by
  have h := C3_frame_up_to_OFFSET_INS_rejected env_one_byte state_boot
    (recv_apdu env_one_byte state_boot).2 1 (by decide) (by decide)
  refine ⟨by decide, by decide, ?_, ?_⟩
  · rw [h.2.1 0]
  · rw [h.2.1 0, h.2.2]
    decide

/-- C3 as stated fails: the two byte frame `E0 00` has a length that is at most the
header length `OFFSET_CDATA` = 2, and it is dispatched, with opcode 0 and payload
length 0; the pass does not end `app_main`. -/
theorem C3_counterexample :
    (recv_apdu env_header_only state_boot).1 = .ok 2 ∧
    (2 : Int) ≤ (OFFSET_CDATA : Int) ∧
    (app_main_body env_header_only state_boot).1 = .again ∧
    dispatch_calls (app_main_body env_header_only state_boot).2.trace
      = [Event.dispatch_command 0 { ledger_public_key := [], state := 0 }
          [0, 0, 0, 0, 0, 0] 0] := by
  decide

/-- C4. At every pass through the loop of `app_main`, if the frame `recv_apdu`
returned has a class byte different from 0xE0, whatever the length returned and the
other bytes, the pass ends `app_main`: the function returns in the very state
`recv_apdu` left (nothing is staged, no exchange follows), and neither a call of
`dispatch_command` nor a call of `send_apdu` has been added to the log. -/
theorem C4_wrong_class_rejected (env : Env) (s s1 : State) (len : Int)
    (hrecv : recv_apdu env s = (.ok len, s1))
    (hcla : s1.G_io_apdu_buffer.getD OFFSET_CLA 0 ≠ 0xE0) :
    app_main_body env s = (.returned, s1) ∧
    (∀ fuel, app_main_loop env (fuel + 1) s = (.returned, s1)) ∧
    dispatch_calls s1.trace = dispatch_calls s.trace ∧
    reply_calls s1.trace = reply_calls s.trace := by
  have hb := app_main_body_of_rejected env s s1 len hrecv (Or.inr (Or.inl hcla))
  exact ⟨hb, fun fuel => app_main_loop_of_returned env s s1 fuel hb,
    dispatch_calls_of_recv env s s1 _ hrecv, reply_calls_of_recv env s s1 _ hrecv⟩

/-- C4 at a concrete frame: `E1 01 07` ends `app_main`; the log holds the receive and
its exchange only. -/
theorem C4_wrong_class_rejected_witness :
    (recv_apdu env_wrong_class state_boot).1 = .ok 3 ∧
    (recv_apdu env_wrong_class state_boot).2.G_io_apdu_buffer.getD OFFSET_CLA 0 = 0xE1 ∧
    (app_main_loop env_wrong_class 5 state_boot).1 = .returned ∧
    (app_main_loop env_wrong_class 5 state_boot).2.trace
      = [Event.recv_apdu, Event.io_exchange .CHANNEL_APDU 0 []] := by
  have h := C4_wrong_class_rejected env_wrong_class state_boot
    (recv_apdu env_wrong_class state_boot).2 3 (by decide) (by decide)
  refine ⟨by decide, by decide, ?_, ?_⟩
  · rw [h.2.1 4]
  · rw [h.2.1 4]
    decide

/-- C5. At every pass through the loop of `app_main`, if the opcode byte of the frame
`recv_apdu` returned is at least `COMMAND_UPPER_BOUND`, the pass ends `app_main`
without a call of `dispatch_command`. Hence in every run of `app_main`, from every
state and for every number of passes, each call of `dispatch_command` the run adds to
the log has an opcode strictly below `COMMAND_UPPER_BOUND`. -/
theorem C5_opcode_from_upper_bound_rejected (env : Env) (s s1 : State) (len : Int)
    (hrecv : recv_apdu env s = (.ok len, s1))
    (hins : env.COMMAND_UPPER_BOUND ≤ s1.G_io_apdu_buffer.getD OFFSET_INS 0) :
    app_main_body env s = (.returned, s1) ∧
    (∀ fuel, app_main_loop env (fuel + 1) s = (.returned, s1)) ∧
    dispatch_calls s1.trace = dispatch_calls s.trace ∧
    (∀ (fuel : Nat) (s0 : State), ∃ new,
      dispatch_calls (app_main env fuel s0).2.trace = dispatch_calls s0.trace ++ new ∧
      ∀ e ∈ new, ∃ ins c p l, e = Event.dispatch_command ins c p l ∧
        ins < env.COMMAND_UPPER_BOUND) := by
  have hb := app_main_body_of_rejected env s s1 len hrecv (Or.inr (Or.inr hins))
  exact ⟨hb, fun fuel => app_main_loop_of_returned env s s1 fuel hb,
    dispatch_calls_of_recv env s s1 _ hrecv,
    fun fuel s0 => dispatch_calls_app_main env fuel s0⟩

/-- C5 at a concrete frame: `E0 04 07` with an upper bound of 4 ends `app_main`
without a dispatch. -/
theorem C5_opcode_from_upper_bound_rejected_witness :
    (recv_apdu env_high_opcode state_boot).1 = .ok 3 ∧
    env_high_opcode.COMMAND_UPPER_BOUND
      ≤ (recv_apdu env_high_opcode state_boot).2.G_io_apdu_buffer.getD OFFSET_INS 0 ∧
    (app_main_loop env_high_opcode 2 state_boot).1 = .returned ∧
    dispatch_calls (app_main_loop env_high_opcode 2 state_boot).2.trace = [] := by
  have h := C5_opcode_from_upper_bound_rejected env_high_opcode state_boot
    (recv_apdu env_high_opcode state_boot).2 3 (by decide) (by decide)
  refine ⟨by decide, by decide, ?_, ?_⟩
  · rw [h.2.1 1]
  · rw [h.2.1 1, h.2.2.1]
    decide

/-- C6. At every pass through the loop of `app_main`, if `recv_apdu` returns a length
above `OFFSET_INS` and the frame has class byte 0xE0 and an opcode byte below
`COMMAND_UPPER_BOUND`, the pass adds exactly one call of `dispatch_command` to the
log, made with the byte at `OFFSET_INS` as opcode, the application context, the
buffer from `OFFSET_CDATA` on as payload and the length minus `OFFSET_CDATA` as
payload length; the handler runs with `send_apdu` as its reply function, and the
pass goes on according to the status it returns. -/
theorem C6_accepted_frame_dispatched_once (env : Env) (s s1 : State) (len : Int)
    (hrecv : recv_apdu env s = (.ok len, s1))
    (hlen : (OFFSET_INS : Int) < len)
    (hcla : s1.G_io_apdu_buffer.getD OFFSET_CLA 0 = 0xE0)
    (hins : s1.G_io_apdu_buffer.getD OFFSET_INS 0 < env.COMMAND_UPPER_BOUND) :
    dispatch_calls (app_main_body env s).2.trace
      = dispatch_calls s.trace ++
        [Event.dispatch_command (s1.G_io_apdu_buffer.getD OFFSET_INS 0) s1.ctx
          (s1.G_io_apdu_buffer.drop OFFSET_CDATA) (len - (OFFSET_CDATA : Int))] ∧
    s1.ctx = s.ctx ∧
    app_main_body env s =
      (match run_handler (send_apdu env)
          (env.dispatch_command s1.trace (s1.G_io_apdu_buffer.getD OFFSET_INS 0) s1.ctx
            (s1.G_io_apdu_buffer.drop OFFSET_CDATA) (len - (OFFSET_CDATA : Int)))
          { s1 with trace := s1.trace ++
            [Event.dispatch_command (s1.G_io_apdu_buffer.getD OFFSET_INS 0) s1.ctx
              (s1.G_io_apdu_buffer.drop OFFSET_CDATA) (len - (OFFSET_CDATA : Int))] } with
      | (.raised f, s2) => (.raised f, s2)
      | (.ok status, s2) =>
        if status < 0 then (.returned, s2)
        else if s2.ctx.state = env.INITIAL_STATE then idle_block env s2
        else (.again, s2)) := by
  have hacc := app_main_body_of_accepted env s s1 len hrecv hlen hcla hins
  refine ⟨?_, ?_, ?_⟩
  · have hd := dispatch_calls_dispatch_command env (s1.G_io_apdu_buffer.getD OFFSET_INS 0)
      (s1.G_io_apdu_buffer.drop OFFSET_CDATA) (len - (OFFSET_CDATA : Int)) s1
    rw [dispatch_calls_of_recv env s s1 _ hrecv] at hd
    rw [hacc]
    rcases hx : dispatch_command env (s1.G_io_apdu_buffer.getD OFFSET_INS 0)
      (s1.G_io_apdu_buffer.drop OFFSET_CDATA) (len - (OFFSET_CDATA : Int))
      (send_apdu env) s1 with ⟨r2, s2⟩
    rw [hx] at hd
    simp only at hd
    cases r2 with
    | raised f => exact hd
    | ok status =>
      simp only
      split
      · exact hd
      · split
        · rw [dispatch_calls_idle_block]; exact hd
        · exact hd
  · have hc : (recv_apdu env s).2.ctx = s.ctx := by
      cases h : s.io_state
      · rw [recv_apdu_READY env s h, io_exchange_ctx]
      · rw [recv_apdu_RECEIVED env s h, io_exchange_ctx]
      · rw [recv_apdu_WAITING_USER env s h]
    rw [hrecv] at hc
    exact hc
  · rw [hacc]
    rfl

/-- C6 at a concrete frame: `E0 01 07` is dispatched once, with opcode 1, the one
payload byte 07 at the head of the payload pointer, and payload length 1. -/
theorem C6_accepted_frame_dispatched_once_witness :
    (recv_apdu env_echo state_boot).1 = .ok 3 ∧
    dispatch_calls (app_main_body env_echo state_boot).2.trace
      = [Event.dispatch_command 1 { ledger_public_key := [], state := 0 }
          [7, 0, 0, 0, 0, 0] 1] := by
  have h := C6_accepted_frame_dispatched_once env_echo state_boot
    (recv_apdu env_echo state_boot).2 3 (by decide) (by decide) (by decide) (by decide)
  refine ⟨by decide, ?_⟩
  rw [h.1]
  decide

/-! ### Staging and transmitting a reply -/

theorem int_of_unsigned_of_lt (n : Nat) (hn : n < 2 ^ 31) : int_of_unsigned n = (n : Int) := by
  have h1 : n % 2 ^ 32 = n := Nat.mod_eq_of_lt (by omega)
  unfold int_of_unsigned
  rw [h1, if_pos hn]

theorem os_memmove_take (dst src : List Nat) (n : Nat) (h : src.length = n) :
    (os_memmove dst src n).take n = src := by
  unfold os_memmove
  subst h
  simp

/-- C7. Synchronous round trip. Let `recv_apdu` be called in READY with nothing
staged and return a frame, let `send_apdu(b, n)` follow, with `b` of length `n`
(below `2^31`, so that `n` is an `int`), and let `recv_apdu` be called again. The
first receive is a blocking exchange that hands over nothing; the send returns 0,
ends in READY and adds only its own entry to the log, staging `b`; the second
receive performs exactly one exchange, blocking, with transmit length `n` and
outgoing bytes `b`. -/
theorem C7_synchronous_round_trip (env : Env) (s0 s1 : State) (len : Int) (b : List Nat)
    (n : Nat)
    (h0 : s0.io_state = .READY) (hempty : s0.output_length = 0)
    (hrecv : recv_apdu env s0 = (.ok len, s1))
    (hb : b.length = n) (hn : n < 2 ^ 31) :
    s1.trace = s0.trace ++ [Event.recv_apdu, Event.io_exchange .CHANNEL_APDU 0 []] ∧
    send_apdu env b n s1 = (.ok 0, { s1 with
      G_io_apdu_buffer := b ++ s1.G_io_apdu_buffer.drop n,
      output_length := (n : Int),
      io_state := .READY,
      trace := s1.trace ++ [Event.send_apdu b n] }) ∧
    (recv_apdu env (send_apdu env b n s1).2).2.trace
      = s1.trace ++ [Event.send_apdu b n, Event.recv_apdu,
          Event.io_exchange .CHANNEL_APDU (n : Int) b] := by
  have hs1 : s1.io_state = .RECEIVED := by
    have h := recv_apdu_follows_table env s0
    rw [hrecv, h0] at h
    exact h
  have ht1 := recv_apdu_trace env s0
  rw [hrecv, h0, hempty] at ht1
  have hsend : send_apdu env b n s1 = (.ok 0, { s1 with
      G_io_apdu_buffer := b ++ s1.G_io_apdu_buffer.drop n,
      output_length := (n : Int),
      io_state := .READY,
      trace := s1.trace ++ [Event.send_apdu b n] }) := by
    rw [send_apdu_RECEIVED env b n s1 hs1, int_of_unsigned_of_lt n hn]
    unfold os_memmove
    subst hb
    simp
  refine ⟨by simpa using ht1, hsend, ?_⟩
  rw [hsend, recv_apdu_trace]
  subst hb
  simp

/-- C7 at a concrete run: the reply `90 00` staged after the first frame is the one
transmission of the second receive. -/
theorem C7_synchronous_round_trip_witness :
    (recv_apdu env_echo
        (send_apdu env_echo [0x90, 0x00] 2 (recv_apdu env_echo state_boot).2).2).2.trace
      = [Event.recv_apdu, Event.io_exchange .CHANNEL_APDU 0 [],
         Event.send_apdu [0x90, 0x00] 2, Event.recv_apdu,
         Event.io_exchange .CHANNEL_APDU 2 [0x90, 0x00]] := by
  have h := C7_synchronous_round_trip env_echo state_boot (recv_apdu env_echo state_boot).2 3
    [0x90, 0x00] 2 rfl rfl (by decide) rfl (by decide)
  rw [h.2.2, h.1]
  rfl

/-- C8. Final reply of the two-phase flow. `send_apdu(b, n)` called in WAITING_USER
with `b` of length `n` (below `2^31`) performs exactly one exchange, with the flag
`IO_RETURN_AFTER_TX`, transmit length `n` and outgoing bytes `b`. When that exchange
returns, `send_apdu` returns 0 with `output_length` = 0 and `io_state` = READY; when
the transport throws instead, `send_apdu` does not return. -/
theorem C8_final_reply (env : Env) (s : State) (b : List Nat) (n : Nat)
    (h : s.io_state = .WAITING_USER) (hb : b.length = n) (hn : n < 2 ^ 31) :
    (send_apdu env b n s).2.trace
      = s.trace ++ [Event.send_apdu b n, Event.io_exchange .IO_RETURN_AFTER_TX (n : Int) b] ∧
    (match env.io_exchange (s.trace ++ [Event.send_apdu b n]) .IO_RETURN_AFTER_TX (n : Int)
        (b ++ s.G_io_apdu_buffer.drop n) with
      | .ok (_, buf) =>
        send_apdu env b n s = (.ok 0, { s with
          G_io_apdu_buffer := buf,
          output_length := 0,
          io_state := .READY,
          trace := s.trace ++
            [Event.send_apdu b n, Event.io_exchange .IO_RETURN_AFTER_TX (n : Int) b] })
      | .raised f => (send_apdu env b n s).1 = .raised f) := by
  have hm : os_memmove s.G_io_apdu_buffer b n = b ++ s.G_io_apdu_buffer.drop n := by
    unfold os_memmove
    subst hb
    simp
  constructor
  · rw [send_apdu_trace, h, int_of_unsigned_of_lt n hn]
    simp [os_memmove_take _ _ _ hb]
  · rw [send_apdu_WAITING_USER env b n s h, int_of_unsigned_of_lt n hn, hm]
    cases hx : env.io_exchange (s.trace ++ [Event.send_apdu b n]) .IO_RETURN_AFTER_TX (n : Int)
        (b ++ s.G_io_apdu_buffer.drop n) with
    | raised f =>
      simp only
      rw [io_exchange_raised_of_env env _ _ _ f hx]
    | ok v =>
      obtain ⟨r, buf⟩ := v
      simp only
      rw [io_exchange_ok_of_env env _ _ _ r buf hx]
      subst hb
      simp

/-- C8 at a concrete state: the final reply `90 00`. -/
theorem C8_final_reply_witness :
    send_apdu env_echo [0x90, 0x00] 2 state_waiting = (.ok 0, { state_waiting with
      G_io_apdu_buffer := [0x90, 0x00, 0, 0, 0, 0, 0, 0],
      output_length := 0,
      io_state := .READY,
      trace := [Event.send_apdu [0x90, 0x00] 2,
        Event.io_exchange .IO_RETURN_AFTER_TX 2 [0x90, 0x00]] }) :=
  (C8_final_reply env_echo state_waiting [0x90, 0x00] 2 rfl rfl (by decide)).2

/-- C10 fails on the code. `send_apdu([AA, BB], 2)` called in READY with nothing
staged returns -1, yet it has put `AA BB` at the head of the APDU buffer and set
`output_length` to 2, and the next `recv_apdu` hands these two bytes to the
transport. The same happens inside `app_main`: when a handler replies twice, the
second call is the invalid one, returns -1, and its buffer `6A 80` is what the next
receive transmits, in place of the accepted reply `90 00`. -/
theorem C10_invalid_send_overwrites_pending_output :
    state_boot.io_state = .READY ∧
    state_boot.output_length = 0 ∧
    state_boot.G_io_apdu_buffer = [0, 0, 0, 0, 0, 0, 0, 0] ∧
    (send_apdu env_echo [0xAA, 0xBB] 2 state_boot).1 = .ok (-1) ∧
    (send_apdu env_echo [0xAA, 0xBB] 2 state_boot).2.output_length = 2 ∧
    (send_apdu env_echo [0xAA, 0xBB] 2 state_boot).2.G_io_apdu_buffer
      = [0xAA, 0xBB, 0, 0, 0, 0, 0, 0] ∧
    (recv_apdu env_echo (send_apdu env_echo [0xAA, 0xBB] 2 state_boot).2).2.trace
      = [Event.send_apdu [0xAA, 0xBB] 2, Event.recv_apdu,
         Event.io_exchange .CHANNEL_APDU 2 [0xAA, 0xBB]] ∧
    (app_main_loop env_double_reply 2 state_boot).2.trace
      = [Event.recv_apdu, Event.io_exchange .CHANNEL_APDU 0 [],
         Event.dispatch_command 1 { ledger_public_key := [], state := 0 }
           [7, 0, 0, 0, 0, 0] 1,
         Event.send_apdu [0x90, 0x00] 2, Event.send_apdu [0x6A, 0x80] 2,
         Event.call .ui_idle, Event.call .create_payin_transaction,
         Event.recv_apdu, Event.io_exchange .CHANNEL_APDU 2 [0x6A, 0x80],
         Event.dispatch_command 1 { ledger_public_key := [], state := 0 }
           [7, 0, 0, 0, 0, 0] 1,
         Event.send_apdu [0x90, 0x00] 2, Event.send_apdu [0x6A, 0x80] 2,
         Event.call .ui_idle, Event.call .create_payin_transaction] := by
  decide

/-! ### The call log only grows -/

theorem send_apdu_trace_grows (env : Env) (b : List Nat) (n : Nat) (s : State) :
    ∃ ext, (send_apdu env b n s).2.trace = s.trace ++ ext :=
  ⟨_, send_apdu_trace env b n s⟩

theorem run_handler_trace_grows (env : Env) (h : Handler) :
    ∀ s : State, ∃ ext, (run_handler (send_apdu env) h s).2.trace = s.trace ++ ext := by
  induction h with
  | ret status c => intro s; exact ⟨[], by simp [run_handler]⟩
  | raise f c => intro s; exact ⟨[], by simp [run_handler]⟩
  | reply c b n k ih =>
    intro s
    obtain ⟨e1, h1⟩ := send_apdu_trace_grows env b n { s with ctx := c }
    rw [run_handler]
    rcases hx : send_apdu env b n { s with ctx := c } with ⟨r, s1⟩
    rw [hx] at h1
    simp only at h1
    cases r with
    | raised f => exact ⟨e1, h1⟩
    | ok v =>
      obtain ⟨e2, h2⟩ := ih v s1
      exact ⟨e1 ++ e2, by simp only; rw [h2, h1, List.append_assoc]⟩

theorem dispatch_command_trace_grows (env : Env) (ins : Nat) (p : List Nat) (l : Int)
    (s : State) :
    ∃ ext, (dispatch_command env ins p l (send_apdu env) s).2.trace = s.trace ++ ext := by
  unfold dispatch_command
  obtain ⟨e, h⟩ := run_handler_trace_grows env (env.dispatch_command s.trace ins s.ctx p l)
    { s with trace := s.trace ++ [Event.dispatch_command ins s.ctx p l] }
  exact ⟨Event.dispatch_command ins s.ctx p l :: e, by rw [h]; simp⟩

theorem idle_block_trace_grows (env : Env) (s : State) :
    ∃ ext, (idle_block env s).2.trace = s.trace ++ ext := by
  unfold idle_block
  have h1 := ext_call_trace env .ui_idle s
  rcases hx : ext_call env .ui_idle s with ⟨r, s1⟩
  rw [hx] at h1
  simp only at h1
  cases r with
  | raised f => exact ⟨_, h1⟩
  | ok v =>
    have h2 := ext_call_trace env .create_payin_transaction s1
    rcases hy : ext_call env .create_payin_transaction s1 with ⟨r2, s2⟩
    rw [hy] at h2
    simp only at h2
    cases r2 with
    | raised f => exact ⟨_, by simp only [hy]; rw [h2, h1, List.append_assoc]⟩
    | ok w => exact ⟨_, by simp only [hy]; rw [h2, h1, List.append_assoc]⟩

theorem app_main_body_trace_starts_with_recv (env : Env) (s : State) :
    ∃ tail, (app_main_body env s).2.trace = s.trace ++ Event.recv_apdu :: tail := by
  have hr := recv_apdu_trace env s
  rcases hrecv : recv_apdu env s with ⟨r, s1⟩
  rw [hrecv] at hr
  simp only at hr
  cases r with
  | raised f => exact ⟨_, by simp only [app_main_body, hrecv]; exact hr⟩
  | ok len =>
    by_cases h1 : len = -1
    · subst h1
      rw [app_main_body_of_recv_minus_one env s s1 hrecv]
      exact ⟨_, hr⟩
    by_cases hbad : len ≤ (OFFSET_INS : Int) ∨ s1.G_io_apdu_buffer.getD OFFSET_CLA 0 ≠ CLA ∨
        s1.G_io_apdu_buffer.getD OFFSET_INS 0 ≥ env.COMMAND_UPPER_BOUND
    · rw [app_main_body_of_rejected env s s1 len hrecv hbad]
      exact ⟨_, hr⟩
    · unfold app_main_body
      rw [hrecv]
      simp only
      rw [if_neg h1, if_neg hbad]
      obtain ⟨e, hd⟩ := dispatch_command_trace_grows env (s1.G_io_apdu_buffer.getD OFFSET_INS 0)
          (s1.G_io_apdu_buffer.drop OFFSET_CDATA) (len - (OFFSET_CDATA : Int)) s1
      rcases hx : dispatch_command env (s1.G_io_apdu_buffer.getD OFFSET_INS 0)
          (s1.G_io_apdu_buffer.drop OFFSET_CDATA) (len - (OFFSET_CDATA : Int))
          (send_apdu env) s1 with ⟨r2, s2⟩
      rw [hx] at hd
      simp only at hd
      have hs2 : ∃ tail, s2.trace = s.trace ++ Event.recv_apdu :: tail :=
        ⟨_, by rw [hd, hr, List.append_assoc]; rfl⟩
      cases r2 with
      | raised f => exact hs2
      | ok status =>
        simp only
        split
        · exact hs2
        · split
          · obtain ⟨e3, h3⟩ := idle_block_trace_grows env s2
            obtain ⟨tl, htl⟩ := hs2
            exact ⟨tl ++ e3, by rw [h3, htl]; simp⟩
          · exact hs2

theorem app_main_loop_trace_grows (env : Env) (fuel : Nat) :
    ∀ s : State, ∃ ext, (app_main_loop env fuel s).2.trace = s.trace ++ ext := by
  induction fuel with
  | zero => intro s; exact ⟨[], by simp [app_main_loop]⟩
  | succ k ih =>
    intro s
    obtain ⟨tl, h1⟩ := app_main_body_trace_starts_with_recv env s
    rw [app_main_loop]
    rcases hx : app_main_body env s with ⟨r, s1⟩
    rw [hx] at h1
    simp only at h1
    cases r with
    | raised f => exact ⟨_, h1⟩
    | returned => exact ⟨_, h1⟩
    | again =>
      obtain ⟨e2, h2⟩ := ih s1
      exact ⟨_, by simp only; rw [h2, h1, List.append_assoc]⟩

theorem app_main_loop_trace_starts_with_recv (env : Env) (fuel : Nat) (s : State) :
    ∃ tail, (app_main_loop env (fuel + 1) s).2.trace = s.trace ++ Event.recv_apdu :: tail := by
  obtain ⟨tl, h1⟩ := app_main_body_trace_starts_with_recv env s
  rw [app_main_loop]
  rcases hx : app_main_body env s with ⟨r, s1⟩
  rw [hx] at h1
  simp only at h1
  cases r with
  | raised f => exact ⟨_, h1⟩
  | returned => exact ⟨_, h1⟩
  | again =>
    obtain ⟨e2, h2⟩ := app_main_loop_trace_grows env fuel s1
    exact ⟨tl ++ e2, by simp only; rw [h2, h1]; simp⟩

theorem idle_block_of_no_fault (env : Env) (s : State)
    (h1 : env.raises s.trace .ui_idle = none)
    (h2 : env.raises (s.trace ++ [Event.call .ui_idle]) .create_payin_transaction = none) :
    idle_block env s = (.again, { s with trace := s.trace ++
      [Event.call .ui_idle, Event.call .create_payin_transaction] }) := by
  simp [idle_block, ext_call, h1, h2]

/-- C9. Failure propagation in the main cycle. At every pass through the loop of
`app_main`: when `recv_apdu` returns -1, `app_main` returns in the state `recv_apdu`
left; when a frame passes the gate and `dispatch_command` returns a negative status,
`app_main` returns in the state `dispatch_command` left, so that no receive, no
dispatch and no idle UI call follows; when `dispatch_command` returns a status that
is not negative, the pass ends with the loop going round again (after `ui_idle` and
`create_payin_transaction` when the context is in its initial state, provided these
two calls return), and the next thing the loop does is to call `recv_apdu`. -/
theorem C9_failure_propagation (env : Env) (s s1 : State) :
    (recv_apdu env s = (.ok (-1), s1) →
      app_main_body env s = (.returned, s1) ∧
      ∀ fuel, app_main_loop env (fuel + 1) s = (.returned, s1)) ∧
    (∀ (len status : Int) (s2 : State),
      recv_apdu env s = (.ok len, s1) →
      (OFFSET_INS : Int) < len →
      s1.G_io_apdu_buffer.getD OFFSET_CLA 0 = CLA →
      s1.G_io_apdu_buffer.getD OFFSET_INS 0 < env.COMMAND_UPPER_BOUND →
      dispatch_command env (s1.G_io_apdu_buffer.getD OFFSET_INS 0)
        (s1.G_io_apdu_buffer.drop OFFSET_CDATA) (len - (OFFSET_CDATA : Int))
        (send_apdu env) s1 = (.ok status, s2) →
      (status < 0 →
        app_main_body env s = (.returned, s2) ∧
        ∀ fuel, app_main_loop env (fuel + 1) s = (.returned, s2)) ∧
      (0 ≤ status →
        (s2.ctx.state = env.INITIAL_STATE →
          env.raises s2.trace .ui_idle = none ∧
          env.raises (s2.trace ++ [Event.call .ui_idle]) .create_payin_transaction = none) →
        ∃ s3, s3 = (if s2.ctx.state = env.INITIAL_STATE
            then { s2 with trace := s2.trace ++
              [Event.call .ui_idle, Event.call .create_payin_transaction] }
            else s2) ∧
          app_main_body env s = (.again, s3) ∧
          ∀ fuel, app_main_loop env (fuel + 2) s = app_main_loop env (fuel + 1) s3 ∧
            ∃ tail, (app_main_loop env (fuel + 2) s).2.trace
              = s3.trace ++ Event.recv_apdu :: tail)) := by
  constructor
  · intro hrecv
    have hb := app_main_body_of_recv_minus_one env s s1 hrecv
    exact ⟨hb, fun fuel => app_main_loop_of_returned env s s1 fuel hb⟩
  · intro len status s2 hrecv hlen hcla hins hdisp
    have hacc := app_main_body_of_accepted env s s1 len hrecv hlen hcla hins
    rw [hdisp] at hacc
    simp only at hacc
    constructor
    · intro hneg
      rw [if_pos hneg] at hacc
      exact ⟨hacc, fun fuel => app_main_loop_of_returned env s s2 fuel hacc⟩
    · intro hpos hidle
      rw [if_neg (by omega)] at hacc
      refine ⟨_, rfl, ?_, ?_⟩
      · by_cases hst : s2.ctx.state = env.INITIAL_STATE
        · rw [if_pos hst] at hacc ⊢
          rw [hacc, idle_block_of_no_fault env s2 (hidle hst).1 (hidle hst).2]
        · rw [if_neg hst] at hacc ⊢
          exact hacc
      · intro fuel
        have hbody : app_main_body env s = (.again, (if s2.ctx.state = env.INITIAL_STATE
            then { s2 with trace := s2.trace ++
              [Event.call .ui_idle, Event.call .create_payin_transaction] }
            else s2)) := by
          by_cases hst : s2.ctx.state = env.INITIAL_STATE
          · rw [if_pos hst] at hacc ⊢
            rw [hacc, idle_block_of_no_fault env s2 (hidle hst).1 (hidle hst).2]
          · rw [if_neg hst] at hacc ⊢
            exact hacc
        have hloop : app_main_loop env (fuel + 2) s = app_main_loop env (fuel + 1)
            (if s2.ctx.state = env.INITIAL_STATE
              then { s2 with trace := s2.trace ++
                [Event.call .ui_idle, Event.call .create_payin_transaction] }
              else s2) := by
          rw [app_main_loop, hbody]
        refine ⟨hloop, ?_⟩
        rw [hloop]
        exact app_main_loop_trace_starts_with_recv env fuel _

/-- C9 at concrete runs: an exchange that returns -1 and a handler that returns -5
both end `app_main` on the spot; a handler that returns 0 is followed by the idle UI
calls and by the next `recv_apdu`. -/
theorem C9_failure_propagation_witness :
    ((recv_apdu env_transport_error state_boot).1 = .ok (-1) ∧
      (app_main_loop env_transport_error 3 state_boot).1 = .returned ∧
      (app_main_loop env_transport_error 3 state_boot).2.trace
        = [Event.recv_apdu, Event.io_exchange .CHANNEL_APDU 0 []]) ∧
    ((app_main_loop env_failing_handler 3 state_boot).1 = .returned ∧
      (app_main_loop env_failing_handler 3 state_boot).2.trace
        = [Event.recv_apdu, Event.io_exchange .CHANNEL_APDU 0 [],
           Event.dispatch_command 1 { ledger_public_key := [], state := 0 }
             [7, 0, 0, 0, 0, 0] 1]) ∧
    (∃ tail, (app_main_loop env_echo 2 state_boot).2.trace
        = [Event.recv_apdu, Event.io_exchange .CHANNEL_APDU 0 [],
           Event.dispatch_command 1 { ledger_public_key := [], state := 0 }
             [7, 0, 0, 0, 0, 0] 1,
           Event.send_apdu [0x90, 0x00] 2,
           Event.call .ui_idle, Event.call .create_payin_transaction]
          ++ Event.recv_apdu :: tail) := by
  refine ⟨?_, ?_, ?_⟩
  · have h := (C9_failure_propagation env_transport_error state_boot
      (recv_apdu env_transport_error state_boot).2).1 (by decide)
    refine ⟨by decide, ?_, ?_⟩
    · rw [h.2 2]
    · rw [h.2 2]
      decide
  · have h := ((C9_failure_propagation env_failing_handler state_boot
      (recv_apdu env_failing_handler state_boot).2).2 3 (-5)
      (dispatch_command env_failing_handler 1 [7, 0, 0, 0, 0, 0] 1
        (send_apdu env_failing_handler) (recv_apdu env_failing_handler state_boot).2).2
      (by decide) (by decide) (by decide) (by decide) (by decide)).1 (by decide)
    constructor
    · rw [h.2 2]
    · rw [h.2 2]
      decide
  · obtain ⟨s3, hs3, _, h⟩ := ((C9_failure_propagation env_echo state_boot
      (recv_apdu env_echo state_boot).2).2 3 0
      (dispatch_command env_echo 1 [7, 0, 0, 0, 0, 0] 1
        (send_apdu env_echo) (recv_apdu env_echo state_boot).2).2
      (by decide) (by decide) (by decide) (by decide) (by decide)).2 (by decide)
      (fun _ => ⟨rfl, rfl⟩)
    obtain ⟨tail, ht⟩ := (h 0).2
    refine ⟨tail, ?_⟩
    rw [ht, hs3]
    rfl

/-! ### Pending output across a receive -/

/-- C11 fails on the code. After `recv_apdu`, `send_apdu([90, 00], 2)` and a second
`recv_apdu`, which hands the staged reply to the transport and returns, the pending
output is not empty: `output_length` is still 2. A further `recv_apdu` passes the
same length 2 to a second exchange. The same happens inside `app_main` when the
handler of the next command does not reply: the length staged for the first command
goes to the blocking exchange and again to the asynchronous one. `send_apdu` in
WAITING_USER does set `output_length = 0` after its exchange (main.c, line 89);
`recv_apdu` has no such assignment. -/
theorem C11_recv_leaves_output_length :
    (run_calls env_echo [.recv, .send [0x90, 0x00] 2, .recv] state_boot).1 = .ok [3, 0, 3] ∧
    (run_calls env_echo [.recv, .send [0x90, 0x00] 2, .recv] state_boot).2.output_length = 2 ∧
    (run_calls env_echo [.recv, .send [0x90, 0x00] 2, .recv, .recv] state_boot).2.trace
      = [Event.recv_apdu, Event.io_exchange .CHANNEL_APDU 0 [],
         Event.send_apdu [0x90, 0x00] 2,
         Event.recv_apdu, Event.io_exchange .CHANNEL_APDU 2 [0x90, 0x00],
         Event.recv_apdu, Event.io_exchange .IO_ASYNCH_REPLY 2 [0xE0, 0x01]] ∧
    (app_main_loop env_reply_once 3 state_boot).2.trace
      = [Event.recv_apdu, Event.io_exchange .CHANNEL_APDU 0 [],
         Event.dispatch_command 1 { ledger_public_key := [], state := 0 }
           [7, 0, 0, 0, 0, 0] 1,
         Event.send_apdu [0x90, 0x00] 2,
         Event.call .ui_idle, Event.call .create_payin_transaction,
         Event.recv_apdu, Event.io_exchange .CHANNEL_APDU 2 [0x90, 0x00],
         Event.dispatch_command 1 { ledger_public_key := [], state := 0 }
           [7, 0, 0, 0, 0, 0] 1,
         Event.call .ui_idle, Event.call .create_payin_transaction,
         Event.recv_apdu, Event.io_exchange .IO_ASYNCH_REPLY 2 [0xE0, 0x01],
         Event.dispatch_command 1 { ledger_public_key := [], state := 0 }
           [7, 0, 0, 0, 0, 0] 1,
         Event.call .ui_idle, Event.call .create_payin_transaction] := by
  decide

/-- C12, as the code has it. In READY `recv_apdu` performs exactly one exchange, the
blocking one, and its transmit length is `output_length`, with the first
`output_length` bytes of the APDU buffer going out; the length is 0 and nothing goes
out when nothing is staged. `io_state` is RECEIVED afterwards, and the call returns
what the exchange returns (and throws when the exchange throws). -/
theorem C12_recv_in_READY_transmits_pending_output (env : Env) (s : State)
    (h : s.io_state = .READY) :
    (recv_apdu env s).2.trace = s.trace ++ [Event.recv_apdu,
      Event.io_exchange .CHANNEL_APDU s.output_length
        (s.G_io_apdu_buffer.take s.output_length.toNat)] ∧
    (s.output_length = 0 → (recv_apdu env s).2.trace
      = s.trace ++ [Event.recv_apdu, Event.io_exchange .CHANNEL_APDU 0 []]) ∧
    (recv_apdu env s).2.io_state = .RECEIVED ∧
    (match env.io_exchange (s.trace ++ [Event.recv_apdu]) .CHANNEL_APDU s.output_length
        s.G_io_apdu_buffer with
      | .ok (r, buf) =>
        recv_apdu env s = (.ok r, { s with
          G_io_apdu_buffer := buf,
          io_state := .RECEIVED,
          trace := s.trace ++ [Event.recv_apdu,
            Event.io_exchange .CHANNEL_APDU s.output_length
              (s.G_io_apdu_buffer.take s.output_length.toNat)] })
      | .raised f => (recv_apdu env s).1 = .raised f) := by
  have ht := recv_apdu_trace env s
  rw [h] at ht
  simp only at ht
  refine ⟨ht, ?_, ?_, ?_⟩
  · intro h0
    rw [ht, h0]
    simp
  · have hs := recv_apdu_follows_table env s
    rw [h] at hs
    exact hs
  · rw [recv_apdu_READY env s h]
    cases hx : env.io_exchange (s.trace ++ [Event.recv_apdu]) .CHANNEL_APDU s.output_length
        s.G_io_apdu_buffer with
    | raised f =>
      simp only
      rw [io_exchange_raised_of_env env _ _ _ f hx]
    | ok v =>
      obtain ⟨r, buf⟩ := v
      simp only
      rw [io_exchange_ok_of_env env _ _ _ r buf hx]
      simp

/-- C12 at a concrete state: with `90 00` staged, the receive transmits these two
bytes and returns the length of the frame that comes in. -/
theorem C12_recv_in_READY_transmits_pending_output_witness :
    (recv_apdu env_echo state_staged).1 = .ok 3 ∧
    (recv_apdu env_echo state_staged).2.io_state = .RECEIVED ∧
    (recv_apdu env_echo state_staged).2.trace
      = [Event.recv_apdu, Event.io_exchange .CHANNEL_APDU 2 [0x90, 0x00]] := by
  have h := C12_recv_in_READY_transmits_pending_output env_echo state_staged rfl
  exact ⟨by decide, h.2.2.1, by rw [h.1]; rfl⟩

/-- C12 as stated fails: in READY with the reply `90 00` staged (`output_length` = 2)
the exchange of `recv_apdu` has transmit length 2, not 0, and hands `90 00` over. -/
theorem C12_counterexample :
    state_staged.io_state = .READY ∧
    state_staged.output_length = 2 ∧
    (recv_apdu env_echo state_staged).2.trace
      = [Event.recv_apdu, Event.io_exchange .CHANNEL_APDU 2 [0x90, 0x00]] := by
  decide

/-! ### Which entries the loop of `app_main` adds to the log -/

theorem LoopGrows.refl (tr : List Event) : LoopGrows tr tr :=
  ⟨[], by simp, by simp⟩

theorem LoopGrows.trans {a b c : List Event} (h1 : LoopGrows a b) (h2 : LoopGrows b c) :
    LoopGrows a c := by
  obtain ⟨e1, rfl, p1⟩ := h1
  obtain ⟨e2, rfl, p2⟩ := h2
  refine ⟨e1 ++ e2, by simp, ?_⟩
  intro e he
  rcases List.mem_append.mp he with h | h
  · exact p1 e h
  · exact p2 e h

theorem recv_apdu_events (env : Env) (s : State) :
    LoopGrows s.trace (recv_apdu env s).2.trace := by
  refine ⟨_, recv_apdu_trace env s, ?_⟩
  intro e he
  cases h : s.io_state <;> rw [h] at he <;> simp at he <;>
    rcases he with rfl | rfl <;> rfl

theorem send_apdu_events (env : Env) (b : List Nat) (n : Nat) (s : State) :
    LoopGrows s.trace (send_apdu env b n s).2.trace := by
  refine ⟨_, send_apdu_trace env b n s, ?_⟩
  intro e he
  cases h : s.io_state <;> rw [h] at he <;> simp at he
  · subst he; rfl
  · subst he; rfl
  · rcases he with rfl | rfl <;> rfl

theorem ext_call_events (env : Env) (c : ExtCall) (s : State)
    (hc : loop_event (Event.call c) = true) :
    LoopGrows s.trace (ext_call env c s).2.trace := by
  refine ⟨_, ext_call_trace env c s, ?_⟩
  intro e he
  simp at he
  subst he
  exact hc

theorem run_handler_events (env : Env) (h : Handler) :
    ∀ s : State, LoopGrows s.trace (run_handler (send_apdu env) h s).2.trace := by
  induction h with
  | ret status c => intro s; exact LoopGrows.refl _
  | raise f c => intro s; exact LoopGrows.refl _
  | reply c b n k ih =>
    intro s
    have h1 := send_apdu_events env b n { s with ctx := c }
    rw [run_handler]
    rcases hx : send_apdu env b n { s with ctx := c } with ⟨r, s1⟩
    rw [hx] at h1
    simp only at h1
    cases r with
    | raised f => exact h1
    | ok v => exact h1.trans (ih v s1)

theorem dispatch_command_events (env : Env) (ins : Nat) (p : List Nat) (l : Int)
    (s : State) :
    LoopGrows s.trace (dispatch_command env ins p l (send_apdu env) s).2.trace := by
  unfold dispatch_command
  have h1 : LoopGrows s.trace (s.trace ++ [Event.dispatch_command ins s.ctx p l]) :=
    ⟨_, rfl, by intro e he; simp at he; subst he; rfl⟩
  exact h1.trans (run_handler_events env _ _)

theorem idle_block_events (env : Env) (s : State) :
    LoopGrows s.trace (idle_block env s).2.trace := by
  unfold idle_block
  have h1 := ext_call_events env .ui_idle s rfl
  rcases hx : ext_call env .ui_idle s with ⟨r, s1⟩
  rw [hx] at h1
  simp only at h1
  cases r with
  | raised f => exact h1
  | ok v =>
    have h2 := ext_call_events env .create_payin_transaction s1 rfl
    rcases hy : ext_call env .create_payin_transaction s1 with ⟨r2, s2⟩
    rw [hy] at h2
    simp only at h2
    cases r2 with
    | raised f => simp only [hy]; exact h1.trans h2
    | ok w => simp only [hy]; exact h1.trans h2

theorem app_main_body_events (env : Env) (s : State) :
    LoopGrows s.trace (app_main_body env s).2.trace := by
  have hr := recv_apdu_events env s
  rcases hrecv : recv_apdu env s with ⟨r, s1⟩
  rw [hrecv] at hr
  simp only at hr
  cases r with
  | raised f => simp only [app_main_body, hrecv]; exact hr
  | ok len =>
    by_cases h1 : len = -1
    · subst h1
      rw [app_main_body_of_recv_minus_one env s s1 hrecv]
      exact hr
    by_cases hbad : len ≤ (OFFSET_INS : Int) ∨ s1.G_io_apdu_buffer.getD OFFSET_CLA 0 ≠ CLA ∨
        s1.G_io_apdu_buffer.getD OFFSET_INS 0 ≥ env.COMMAND_UPPER_BOUND
    · rw [app_main_body_of_rejected env s s1 len hrecv hbad]
      exact hr
    · unfold app_main_body
      rw [hrecv]
      simp only
      rw [if_neg h1, if_neg hbad]
      have hd := dispatch_command_events env (s1.G_io_apdu_buffer.getD OFFSET_INS 0)
          (s1.G_io_apdu_buffer.drop OFFSET_CDATA) (len - (OFFSET_CDATA : Int)) s1
      rcases hx : dispatch_command env (s1.G_io_apdu_buffer.getD OFFSET_INS 0)
          (s1.G_io_apdu_buffer.drop OFFSET_CDATA) (len - (OFFSET_CDATA : Int))
          (send_apdu env) s1 with ⟨r2, s2⟩
      rw [hx] at hd
      simp only at hd
      have hs2 := hr.trans hd
      cases r2 with
      | raised f => exact hs2
      | ok status =>
        simp only
        split
        · exact hs2
        · split
          · exact hs2.trans (idle_block_events env s2)
          · exact hs2

theorem app_main_loop_events (env : Env) (fuel : Nat) :
    ∀ s : State, LoopGrows s.trace (app_main_loop env fuel s).2.trace := by
  induction fuel with
  | zero => intro s; exact LoopGrows.refl _
  | succ k ih =>
    intro s
    have h1 := app_main_body_events env s
    rw [app_main_loop]
    rcases hx : app_main_body env s with ⟨r, s1⟩
    rw [hx] at h1
    simp only at h1
    cases r with
    | raised f => exact h1
    | returned => exact h1
    | again => exact h1.trans (ih s1)

/-! ### The entry of `app_main` -/

theorem app_main_eq_entry_then_loop (env : Env) (fuel : Nat) (s : State) :
    app_main env fuel s =
      match app_main_entry env s with
      | (.raised f, s1) => (.raised f, s1)
      | (.ok _, s1) => app_main_loop env fuel s1 := by
  unfold app_main app_main_entry
  rcases init_application_context env s with ⟨r, s1⟩
  cases r with
  | raised f => rfl
  | ok v =>
    simp only
    rcases ext_call env .ui_idle s1 with ⟨r2, s2⟩
    cases r2 with
    | raised f => rfl
    | ok w => rfl

theorem init_application_context_snd (env : Env) (s : State) :
    (init_application_context env s).2.trace
      = s.trace ++ [Event.call (.cx_ecfp_init_public_key (LedgerPubKey env.TEST_PUBLIC_KEY))] ∧
    (init_application_context env s).2.G_io_apdu_buffer = s.G_io_apdu_buffer ∧
    (init_application_context env s).2.output_length = s.output_length ∧
    (init_application_context env s).2.io_state = s.io_state := by
  unfold init_application_context ext_call
  cases hr : env.raises s.trace
    (.cx_ecfp_init_public_key (LedgerPubKey env.TEST_PUBLIC_KEY)) <;> simp [hr]

theorem init_application_context_ok (env : Env) (s s1 : State)
    (h : init_application_context env s = (.ok (), s1)) :
    s1 = { s with
      ctx := { ledger_public_key := LedgerPubKey env.TEST_PUBLIC_KEY,
               state := env.INITIAL_STATE },
      trace := s.trace ++
        [Event.call (.cx_ecfp_init_public_key (LedgerPubKey env.TEST_PUBLIC_KEY))] } := by
  cases hr : env.raises s.trace (.cx_ecfp_init_public_key (LedgerPubKey env.TEST_PUBLIC_KEY))
  · simp [init_application_context, ext_call, hr] at h
    rw [← h]
  · simp [init_application_context, ext_call, hr] at h

theorem ext_call_ok (env : Env) (c : ExtCall) (s s1 : State)
    (h : ext_call env c s = (.ok (), s1)) :
    s1 = { s with trace := s.trace ++ [Event.call c] } := by
  unfold ext_call at h
  cases hr : env.raises s.trace c
  · rw [hr] at h
    simp at h
    rw [← h]
  · rw [hr] at h
    simp at h

theorem app_main_entry_ok (env : Env) (s s1 : State)
    (h : app_main_entry env s = (.ok (), s1)) :
    s1 = { s with
      ctx := { ledger_public_key := LedgerPubKey env.TEST_PUBLIC_KEY,
               state := env.INITIAL_STATE },
      output_length := 0,
      io_state := .READY,
      trace := s.trace ++
        [Event.call (.cx_ecfp_init_public_key (LedgerPubKey env.TEST_PUBLIC_KEY)),
         Event.call .ui_idle] } := by
  unfold app_main_entry at h
  rcases hi : init_application_context env s with ⟨r, sa⟩
  rw [hi] at h
  cases r with
  | raised f => simp at h
  | ok v =>
    have ha := init_application_context_ok env s sa hi
    simp only at h
    rcases hu : ext_call env .ui_idle sa with ⟨r2, sb⟩
    rw [hu] at h
    cases r2 with
    | raised f => simp at h
    | ok w =>
      have hb := ext_call_ok env .ui_idle sa sb hu
      simp only [Prod.mk.injEq, true_and] at h
      rw [← h, hb, ha]
      simp

/-! ### Bring-up -/

theorem ext_call_globals (env : Env) (c : ExtCall) (s : State) :
    globals (ext_call env c s).2 = globals s := by
  unfold ext_call
  cases env.raises s.trace c <;> rfl

theorem ext_calls_globals (env : Env) (cs : List ExtCall) :
    ∀ s : State, globals (ext_calls env cs s).2 = globals s := by
  induction cs with
  | nil => intro s; rfl
  | cons c cs ih =>
    intro s
    have h1 := ext_call_globals env c s
    rw [ext_calls]
    rcases hx : ext_call env c s with ⟨r, s1⟩
    rw [hx] at h1
    cases r with
    | raised f => exact h1
    | ok v => simp only; rw [ih s1]; exact h1

theorem ext_calls_ok (env : Env) (cs : List ExtCall) :
    ∀ s s1 : State, ext_calls env cs s = (.ok (), s1) →
      s1 = { s with trace := s.trace ++ cs.map Event.call } := by
  induction cs with
  | nil =>
    intro s s1 h
    simp [ext_calls] at h
    rw [← h]
    simp
  | cons c cs ih =>
    intro s s1 h
    rw [ext_calls] at h
    rcases hx : ext_call env c s with ⟨r, sa⟩
    rw [hx] at h
    cases r with
    | raised f => simp at h
    | ok v =>
      have ha := ext_call_ok env c s sa hx
      have hb := ih sa s1 h
      rw [hb, ha]
      simp

theorem app_main_entry_globals_of_reset (env : Env) (s : State)
    (hc : s.ctx = { ledger_public_key := LedgerPubKey env.TEST_PUBLIC_KEY,
                    state := env.INITIAL_STATE })
    (ho : s.output_length = 0) (hi : s.io_state = .READY) :
    globals (app_main_entry env s).2 = globals s := by
  cases h1 : env.raises s.trace (.cx_ecfp_init_public_key (LedgerPubKey env.TEST_PUBLIC_KEY))
  · cases h2 : env.raises (s.trace ++
        [Event.call (.cx_ecfp_init_public_key (LedgerPubKey env.TEST_PUBLIC_KEY))]) .ui_idle
    · simp [app_main_entry, init_application_context, ext_call, h1, h2, globals, hc, ho, hi]
    · simp [app_main_entry, init_application_context, ext_call, h1, h2, globals, hc]
  · simp [app_main_entry, init_application_context, ext_call, h1, globals]

theorem cold_start_ok (env : Env) (s s1 : State) (h : cold_start env s = (.ok (), s1)) :
    s1 = { s with
      ctx := { ledger_public_key := LedgerPubKey env.TEST_PUBLIC_KEY,
               state := env.INITIAL_STATE },
      output_length := 0,
      io_state := .READY,
      trace := s.trace ++
        [Event.call .UX_INIT, Event.call .io_seproxyhal_init, Event.call (.USB_power 0),
         Event.call (.USB_power 1), Event.call .power_ble,
         Event.call (.cx_ecfp_init_public_key (LedgerPubKey env.TEST_PUBLIC_KEY)),
         Event.call .ui_idle] } := by
  unfold cold_start at h
  rcases hu : ext_call env .UX_INIT s with ⟨r, sa⟩
  rw [hu] at h
  cases r with
  | raised f => simp at h
  | ok v =>
    have ha := ext_call_ok env .UX_INIT s sa hu
    simp only at h
    rcases hb : bring_up env sa with ⟨r2, sb⟩
    rw [hb] at h
    cases r2 with
    | raised f => simp at h
    | ok w =>
      have hb2 := ext_calls_ok env _ sa sb hb
      simp only at h
      have hc := app_main_entry_ok env sb s1 h
      rw [hc, hb2, ha]
      simp

theorem cold_start_globals_of_reset (env : Env) (s : State)
    (hc : s.ctx = { ledger_public_key := LedgerPubKey env.TEST_PUBLIC_KEY,
                    state := env.INITIAL_STATE })
    (ho : s.output_length = 0) (hi : s.io_state = .READY) :
    globals (cold_start env s).2 = globals s := by
  unfold cold_start
  have h1 := ext_call_globals env .UX_INIT s
  rcases hu : ext_call env .UX_INIT s with ⟨r, sa⟩
  rw [hu] at h1
  simp only at h1
  cases r with
  | raised f => exact h1
  | ok v =>
    simp only
    have h2 := ext_calls_globals env
      [.io_seproxyhal_init, .USB_power 0, .USB_power 1, .power_ble] sa
    rcases hb : bring_up env sa with ⟨r2, sb⟩
    unfold bring_up at hb
    rw [hb] at h2
    simp only at h2
    have h3 : globals sb = globals s := h2.trans h1
    cases r2 with
    | raised f => exact h3
    | ok w =>
      simp only
      have h4 : sb.ctx = s.ctx ∧ sb.output_length = s.output_length ∧
          sb.io_state = s.io_state := by
        simp only [globals, Prod.mk.injEq] at h3
        exact ⟨h3.2.1, h3.2.2.1, h3.2.2.2⟩
      rw [app_main_entry_globals_of_reset env sb (h4.1.trans hc) (h4.2.1.trans ho)
        (h4.2.2.trans hi)]
      exact h3

/-- C13. Reset on entry. Whatever `io_state` and `output_length` were, when the part
of `app_main` before its loop has run, `io_state` is READY and `output_length` is 0,
and this is the state in which the loop makes its first call of `recv_apdu`; when
that part is left by a fault, `app_main` ends with it and the loop is not entered.
The cold start (`UX_INIT`, the bring-up, the entry of `app_main`) run a second time
after a run that has returned leaves the C globals as the first run left them,
whatever the outcome of the second run. -/
theorem C13_reset_before_first_receive (env : Env) (s : State) :
    (∀ s1, app_main_entry env s = (.ok (), s1) →
      s1.io_state = .READY ∧ s1.output_length = 0 ∧
      ∀ fuel, app_main env fuel s = app_main_loop env fuel s1 ∧
        ∃ tail, (app_main env (fuel + 1) s).2.trace = s1.trace ++ Event.recv_apdu :: tail) ∧
    (∀ f s1, app_main_entry env s = (.raised f, s1) →
      ∀ fuel, app_main env fuel s = (.raised f, s1)) ∧
    (∀ s1, cold_start env s = (.ok (), s1) →
      s1.io_state = .READY ∧ s1.output_length = 0 ∧
      globals (cold_start env s1).2 = globals s1) := by
  refine ⟨?_, ?_, ?_⟩
  · intro s1 h
    have hs := app_main_entry_ok env s s1 h
    refine ⟨by rw [hs], by rw [hs], ?_⟩
    intro fuel
    have e1 : ∀ k, app_main env k s = app_main_loop env k s1 := by
      intro k
      rw [app_main_eq_entry_then_loop, h]
    refine ⟨e1 fuel, ?_⟩
    rw [e1 (fuel + 1)]
    exact app_main_loop_trace_starts_with_recv env fuel s1
  · intro f s1 h fuel
    rw [app_main_eq_entry_then_loop, h]
  · intro s1 h
    have hs := cold_start_ok env s s1 h
    refine ⟨by rw [hs], by rw [hs], ?_⟩
    exact cold_start_globals_of_reset env s1 (by rw [hs]) (by rw [hs]) (by rw [hs])

/-- C13 at a concrete state: from WAITING_USER with a stale `output_length`, the cold
start ends in READY with `output_length` 0, and a second cold start changes no
global. -/
theorem C13_reset_before_first_receive_witness :
    (cold_start env_echo state_stale).1 = .ok () ∧
    (cold_start env_echo state_stale).2.io_state = .READY ∧
    (cold_start env_echo state_stale).2.output_length = 0 ∧
    globals (cold_start env_echo (cold_start env_echo state_stale).2).2
      = globals (cold_start env_echo state_stale).2 ∧
    (app_main env_wrong_class 1 state_stale).2.trace
      = [Event.call (.cx_ecfp_init_public_key []), Event.call .ui_idle,
         Event.recv_apdu, Event.io_exchange .CHANNEL_APDU 0 []] := by
  have h := (C13_reset_before_first_receive env_echo state_stale).2.2
    (cold_start env_echo state_stale).2 (by decide)
  exact ⟨by decide, h.1, h.2.1, h.2.2, by decide⟩

/-! ### The supervisor loop -/

theorem app_main_events (env : Env) (fuel : Nat) (s : State) :
    ∃ ext, (app_main env fuel s).2.trace = s.trace ++
        Event.call (.cx_ecfp_init_public_key (LedgerPubKey env.TEST_PUBLIC_KEY)) :: ext ∧
      ∀ e ∈ ext, loop_event e = true := by
  unfold app_main
  have h1 := (init_application_context_snd env s).1
  rcases hx : init_application_context env s with ⟨r, s1⟩
  rw [hx] at h1
  simp only at h1
  cases r with
  | raised f => exact ⟨[], by simp [h1], by simp⟩
  | ok v =>
    simp only
    have h2 := ext_call_trace env .ui_idle s1
    rcases hy : ext_call env .ui_idle s1 with ⟨r2, s2⟩
    rw [hy] at h2
    simp only at h2
    cases r2 with
    | raised f =>
      refine ⟨[Event.call .ui_idle], by simp [h2, h1], ?_⟩
      intro e he
      simp at he
      subst he
      rfl
    | ok w =>
      simp only
      obtain ⟨ext, h3, hp⟩ := app_main_loop_events env fuel
        { s2 with output_length := 0, io_state := .READY }
      refine ⟨Event.call .ui_idle :: ext, ?_, ?_⟩
      · rw [h3]
        simp [h2, h1]
      · intro e he
        rcases List.mem_cons.mp he with h | h
        · subst h; rfl
        · exact hp e h

theorem ext_calls_trace_grows (env : Env) (cs : List ExtCall) :
    ∀ s : State, ∃ ext, (ext_calls env cs s).2.trace = s.trace ++ ext := by
  induction cs with
  | nil => intro s; exact ⟨[], by simp [ext_calls]⟩
  | cons c cs ih =>
    intro s
    have h1 := ext_call_trace env c s
    rw [ext_calls]
    rcases hx : ext_call env c s with ⟨r, s1⟩
    rw [hx] at h1
    simp only at h1
    cases r with
    | raised f => exact ⟨_, h1⟩
    | ok v =>
      obtain ⟨e2, h2⟩ := ih s1
      exact ⟨_, by simp only; rw [h2, h1, List.append_assoc]⟩

theorem protected_block_trace_grows (env : Env) (inner : Nat) (s : State) :
    ∃ ext, (protected_block env inner s).2.trace = s.trace ++ ext := by
  unfold protected_block
  obtain ⟨e1, h1⟩ := ext_calls_trace_grows env
    [.io_seproxyhal_init, .USB_power 0, .USB_power 1, .power_ble] s
  rcases hb : bring_up env s with ⟨r, s1⟩
  unfold bring_up at hb
  rw [hb] at h1
  simp only at h1
  cases r with
  | raised f => exact ⟨e1, h1⟩
  | ok v =>
    obtain ⟨e2, h2, _⟩ := app_main_events env inner s1
    exact ⟨_, by simp only; rw [h2, h1, List.append_assoc]⟩

theorem catch_route_snd (x : Outcome × State) : (catch_route x).2 = x.2 := by
  obtain ⟨r, s⟩ := x
  cases r with
  | returned => rfl
  | out_of_fuel => rfl
  | raised f => cases f <;> rfl

theorem main_body_trace_starts_with_UX_INIT (env : Env) (inner : Nat) (s : State) :
    ∃ tail, (main_body env inner s).2.trace = s.trace ++ Event.call .UX_INIT :: tail := by
  unfold main_body
  have h1 := ext_call_trace env .UX_INIT s
  rcases hx : ext_call env .UX_INIT s with ⟨r, s1⟩
  rw [hx] at h1
  simp only at h1
  cases r with
  | raised f => exact ⟨[], h1⟩
  | ok v =>
    simp only
    rw [catch_route_snd]
    obtain ⟨e2, h2⟩ := protected_block_trace_grows env inner s1
    exact ⟨e2, by rw [h2, h1, List.append_assoc]; rfl⟩

theorem main_loop_trace_grows (env : Env) (inner outer : Nat) :
    ∀ s : State, ∃ ext, (main_loop env inner outer s).2.trace = s.trace ++ ext := by
  induction outer with
  | zero => intro s; exact ⟨[], by simp [main_loop]⟩
  | succ k ih =>
    intro s
    obtain ⟨tl, h1⟩ := main_body_trace_starts_with_UX_INIT env inner s
    rw [main_loop]
    rcases hx : main_body env inner s with ⟨r, s1⟩
    rw [hx] at h1
    simp only at h1
    cases r with
    | again =>
      obtain ⟨e2, h2⟩ := ih s1
      exact ⟨_, by simp only; rw [h2, h1, List.append_assoc]⟩
    | stopped => exact ⟨_, h1⟩
    | raised f => exact ⟨_, h1⟩
    | out_of_fuel => exact ⟨_, h1⟩

theorem main_loop_trace_starts_with_UX_INIT (env : Env) (inner outer : Nat) (s : State) :
    ∃ tail, (main_loop env inner (outer + 1) s).2.trace
      = s.trace ++ Event.call .UX_INIT :: tail := by
  obtain ⟨tl, h1⟩ := main_body_trace_starts_with_UX_INIT env inner s
  rw [main_loop]
  rcases hx : main_body env inner s with ⟨r, s1⟩
  rw [hx] at h1
  simp only at h1
  cases r with
  | again =>
    obtain ⟨e2, h2⟩ := main_loop_trace_grows env inner outer s1
    exact ⟨tl ++ e2, by simp only; rw [h2, h1]; simp⟩
  | stopped => exact ⟨_, h1⟩
  | raised f => exact ⟨_, h1⟩
  | out_of_fuel => exact ⟨_, h1⟩

theorem main_loop_of_again (env : Env) (inner outer : Nat) (s s2 : State)
    (h : main_body env inner s = (.again, s2)) :
    main_loop env inner (outer + 1) s = main_loop env inner outer s2 := by
  rw [main_loop, h]

theorem main_loop_of_stopped (env : Env) (inner outer : Nat) (s s2 : State)
    (h : main_body env inner s = (.stopped, s2)) :
    main_loop env inner (outer + 1) s = (.stopped, s2) := by
  rw [main_loop, h]

theorem main_body_of_bring_up (env : Env) (inner : Nat) (s s3 s4 : State)
    (hux : ext_call env .UX_INIT s = (.ok (), s3))
    (hbu : bring_up env s3 = (.ok (), s4)) :
    s4.trace = s.trace ++
      [Event.call .UX_INIT, Event.call .io_seproxyhal_init, Event.call (.USB_power 0),
       Event.call (.USB_power 1), Event.call .power_ble] ∧
    globals s4 = globals s ∧
    main_body env inner s = catch_route (app_main env inner s4) := by
  have h3 := ext_call_ok env .UX_INIT s s3 hux
  have h4 := ext_calls_ok env _ s3 s4 hbu
  refine ⟨by rw [h4, h3]; simp, by rw [h4, h3]; rfl, ?_⟩
  unfold main_body protected_block
  rw [hux]
  simp only
  rw [hbu]

theorem main_of_stopped (env : Env) (inner outer : Nat) (s0 sb se : State)
    (hboot : ext_call env .os_boot s0 = (.ok (), sb))
    (hloop : main_loop env inner outer sb = (.stopped, se)) :
    (main env outer inner s0).2.trace = se.trace ++ [Event.call (.os_sched_exit (-1))] ∧
    (env.raises se.trace (.os_sched_exit (-1)) = none →
      main env outer inner s0 = (.returned 0, { se with
        trace := se.trace ++ [Event.call (.os_sched_exit (-1))] })) := by
  unfold main
  rw [hboot]
  simp only
  rw [hloop]
  simp only [app_exit, ext_call]
  cases hr : env.raises se.trace (.os_sched_exit (-1)) <;> simp

/-- C14. Failure routing in `main`. Take a pass through the loop of `main` in which
`UX_INIT` has returned. If the protected block (bring-up and `app_main`) is left by
`EXCEPTION_IO_RESET`, wherever it was thrown, the loop goes round: the next pass
starts with `UX_INIT`, and once `UX_INIT` and the bring-up calls have returned,
`app_main` is run again. If the block is left by any other fault, the loop stops.
Whenever the loop has stopped, `main` makes one more call, `os_sched_exit(-1)` from
`app_exit`, and nothing else: no receive follows; `main` then returns 0 if that call
returns. -/
theorem C14_supervisor_failure_routing (env : Env) (inner : Nat) (s s1 s2 : State)
    (hux : ext_call env .UX_INIT s = (.ok (), s1)) :
    (protected_block env inner s1 = (.raised .EXCEPTION_IO_RESET, s2) →
      main_body env inner s = (.again, s2) ∧
      (∀ outer, main_loop env inner (outer + 1) s = main_loop env inner outer s2) ∧
      (∀ outer, ∃ tail, (main_loop env inner (outer + 2) s).2.trace
        = s2.trace ++ Event.call .UX_INIT :: tail) ∧
      (∀ s3 s4, ext_call env .UX_INIT s2 = (.ok (), s3) → bring_up env s3 = (.ok (), s4) →
        s4.trace = s2.trace ++
          [Event.call .UX_INIT, Event.call .io_seproxyhal_init, Event.call (.USB_power 0),
           Event.call (.USB_power 1), Event.call .power_ble] ∧
        main_body env inner s2 = catch_route (app_main env inner s4))) ∧
    (∀ code, protected_block env inner s1 = (.raised (.OTHER code), s2) →
      main_body env inner s = (.stopped, s2) ∧
      (∀ outer, main_loop env inner (outer + 1) s = (.stopped, s2))) ∧
    (∀ (outer : Nat) (s0 sb se : State), ext_call env .os_boot s0 = (.ok (), sb) →
      main_loop env inner outer sb = (.stopped, se) →
      (main env outer inner s0).2.trace = se.trace ++ [Event.call (.os_sched_exit (-1))] ∧
      (env.raises se.trace (.os_sched_exit (-1)) = none →
        main env outer inner s0 = (.returned 0, { se with
          trace := se.trace ++ [Event.call (.os_sched_exit (-1))] }))) := by
  refine ⟨?_, ?_, ?_⟩
  · intro hpb
    have hb : main_body env inner s = (.again, s2) := by
      unfold main_body
      rw [hux]
      simp only
      rw [hpb]
      rfl
    refine ⟨hb, fun outer => main_loop_of_again env inner outer s s2 hb, ?_, ?_⟩
    · intro outer
      rw [main_loop_of_again env inner (outer + 1) s s2 hb]
      exact main_loop_trace_starts_with_UX_INIT env inner outer s2
    · intro s3 s4 h3 h4
      have h := main_body_of_bring_up env inner s2 s3 s4 h3 h4
      exact ⟨h.1, h.2.2⟩
  · intro code hpb
    have hb : main_body env inner s = (.stopped, s2) := by
      unfold main_body
      rw [hux]
      simp only
      rw [hpb]
      rfl
    exact ⟨hb, fun outer => main_loop_of_stopped env inner outer s s2 hb⟩
  · intro outer s0 sb se hboot hloop
    exact main_of_stopped env inner outer s0 sb se hboot hloop

/-- C14 at concrete runs: with a transport that throws `EXCEPTION_IO_RESET` the
second pass of `main` repeats the whole first pass; with a transport that throws
another fault `main` stops in the first pass, calls `os_sched_exit(-1)` and returns
0. -/
theorem C14_supervisor_failure_routing_witness :
    (main_loop env_io_reset 5 2 state_boot).2.trace
      = [Event.call .UX_INIT, Event.call .io_seproxyhal_init, Event.call (.USB_power 0),
         Event.call (.USB_power 1), Event.call .power_ble,
         Event.call (.cx_ecfp_init_public_key []), Event.call .ui_idle,
         Event.recv_apdu, Event.io_exchange .CHANNEL_APDU 0 [],
         Event.call .UX_INIT, Event.call .io_seproxyhal_init, Event.call (.USB_power 0),
         Event.call (.USB_power 1), Event.call .power_ble,
         Event.call (.cx_ecfp_init_public_key []), Event.call .ui_idle,
         Event.recv_apdu, Event.io_exchange .CHANNEL_APDU 0 []] ∧
    (main env_other_fault 3 5 state_boot).1 = .returned 0 ∧
    (main env_other_fault 3 5 state_boot).2.trace
      = [Event.call .os_boot,
         Event.call .UX_INIT, Event.call .io_seproxyhal_init, Event.call (.USB_power 0),
         Event.call (.USB_power 1), Event.call .power_ble,
         Event.call (.cx_ecfp_init_public_key []), Event.call .ui_idle,
         Event.recv_apdu, Event.io_exchange .CHANNEL_APDU 0 [],
         Event.call (.os_sched_exit (-1))] := by
  refine ⟨?_, ?_, ?_⟩
  · have h := (C14_supervisor_failure_routing env_io_reset 5 state_boot
      (ext_call env_io_reset .UX_INIT state_boot).2
      (protected_block env_io_reset 5 (ext_call env_io_reset .UX_INIT state_boot).2).2
      (by decide)).1 (by decide)
    rw [h.2.1 1]
    decide
  · have hs := ((C14_supervisor_failure_routing env_other_fault 5
      (ext_call env_other_fault .os_boot state_boot).2
      (ext_call env_other_fault .UX_INIT (ext_call env_other_fault .os_boot state_boot).2).2
      (protected_block env_other_fault 5
        (ext_call env_other_fault .UX_INIT
          (ext_call env_other_fault .os_boot state_boot).2).2).2
      (by decide)).2.1 6 (by decide)).2 2
    have h := ((C14_supervisor_failure_routing env_other_fault 5 state_boot
      (ext_call env_other_fault .UX_INIT state_boot).2
      state_boot (by decide)).2.2 3 state_boot _ _ (by decide) hs).2 (by decide)
    rw [h]
  · decide

/-- C15, as the code has it. When `app_main` returns (which it does on
`recv_apdu` = -1, on a rejected frame and on a negative handler status), the pass
through the loop of `main` ends like a pass left by `EXCEPTION_IO_RESET`: the loop
goes round, the next pass starts with `UX_INIT`, and once `UX_INIT`, the bring-up
calls `io_seproxyhal_init`, `USB_power(0)`, `USB_power(1)`, `power_ble` and the entry
of `app_main` (context initialised, idle UI drawn) have returned, the loop of
`app_main` starts afresh with `io_state` = READY and `output_length` = 0. -/
theorem C15_inner_fault_restarts_outer_pass (env : Env) (inner : Nat) (s s1 s2 : State)
    (hux : ext_call env .UX_INIT s = (.ok (), s1))
    (hret : protected_block env inner s1 = (.returned, s2)) :
    main_body env inner s = (.again, s2) ∧
    (∀ outer, main_loop env inner (outer + 1) s = main_loop env inner outer s2) ∧
    (∀ outer, ∃ tail, (main_loop env inner (outer + 2) s).2.trace
      = s2.trace ++ Event.call .UX_INIT :: tail) ∧
    (∀ s3 s4 s5, ext_call env .UX_INIT s2 = (.ok (), s3) → bring_up env s3 = (.ok (), s4) →
      app_main_entry env s4 = (.ok (), s5) →
      s5.trace = s2.trace ++
        [Event.call .UX_INIT, Event.call .io_seproxyhal_init, Event.call (.USB_power 0),
         Event.call (.USB_power 1), Event.call .power_ble,
         Event.call (.cx_ecfp_init_public_key (LedgerPubKey env.TEST_PUBLIC_KEY)),
         Event.call .ui_idle] ∧
      s5.io_state = .READY ∧ s5.output_length = 0 ∧
      main_body env inner s2 = catch_route (app_main_loop env inner s5)) := by
  have hb : main_body env inner s = (.again, s2) := by
    unfold main_body
    rw [hux]
    simp only
    rw [hret]
    rfl
  refine ⟨hb, fun outer => main_loop_of_again env inner outer s s2 hb, ?_, ?_⟩
  · intro outer
    rw [main_loop_of_again env inner (outer + 1) s s2 hb]
    exact main_loop_trace_starts_with_UX_INIT env inner outer s2
  · intro s3 s4 s5 h3 h4 h5
    have h := main_body_of_bring_up env inner s2 s3 s4 h3 h4
    have he := app_main_entry_ok env s4 s5 h5
    refine ⟨by rw [he, h.1]; simp, by rw [he], by rw [he], ?_⟩
    rw [h.2.2, app_main_eq_entry_then_loop, h5]

/-- C15 at a concrete run: a frame with a wrong class byte ends `app_main`, and the
loop of `main` goes round. -/
theorem C15_inner_fault_restarts_outer_pass_witness :
    (protected_block env_wrong_class 5 (ext_call env_wrong_class .UX_INIT state_boot).2).1
      = .returned ∧
    main_loop env_wrong_class 5 3 state_boot
      = main_loop env_wrong_class 5 2
          (protected_block env_wrong_class 5
            (ext_call env_wrong_class .UX_INIT state_boot).2).2 := by
  have h := C15_inner_fault_restarts_outer_pass env_wrong_class 5 state_boot
    (ext_call env_wrong_class .UX_INIT state_boot).2
    (protected_block env_wrong_class 5 (ext_call env_wrong_class .UX_INIT state_boot).2).2
    (by decide) (by decide)
  exact ⟨by decide, h.2.1 2⟩

/-- C15 as stated fails: after a frame with a wrong class byte has ended `app_main`,
the next pass of `main` re-runs `io_seproxyhal_init`, `USB_power(0)`, `USB_power(1)`
and `power_ble` before it enters `app_main` again. -/
theorem C15_counterexample :
    (app_main env_wrong_class 5 state_boot).1 = .returned ∧
    (main_loop env_wrong_class 5 2 state_boot).2.trace
      = [Event.call .UX_INIT, Event.call .io_seproxyhal_init, Event.call (.USB_power 0),
         Event.call (.USB_power 1), Event.call .power_ble,
         Event.call (.cx_ecfp_init_public_key []), Event.call .ui_idle,
         Event.recv_apdu, Event.io_exchange .CHANNEL_APDU 0 [],
         Event.call .UX_INIT, Event.call .io_seproxyhal_init, Event.call (.USB_power 0),
         Event.call (.USB_power 1), Event.call .power_ble,
         Event.call (.cx_ecfp_init_public_key []), Event.call .ui_idle,
         Event.recv_apdu, Event.io_exchange .CHANNEL_APDU 0 []] := by
  decide

/-! ### Initialisation of the context -/

theorem not_is_init_of_loop_event (e : Event) (h : loop_event e = true) :
    is_init e = false := by
  cases e with
  | call c => cases c <;> simp [loop_event, is_init] at h ⊢
  | recv_apdu => rfl
  | send_apdu b n => rfl
  | io_exchange m l o => rfl
  | dispatch_command i c p l => rfl

theorem init_calls_append_loop_events (tr ext : List Event)
    (h : ∀ e ∈ ext, loop_event e = true) :
    init_calls (tr ++ ext) = init_calls tr := by
  have h0 : ext.filter is_init = [] := by
    rw [List.filter_eq_nil_iff]
    intro e he
    rw [not_is_init_of_loop_event e (h e he)]
    simp
  simp [init_calls, List.filter_append, h0]

theorem init_calls_app_main (env : Env) (fuel : Nat) (s : State) :
    init_calls (app_main env fuel s).2.trace = init_calls s.trace ++
      [Event.call (.cx_ecfp_init_public_key (LedgerPubKey env.TEST_PUBLIC_KEY))] := by
  obtain ⟨ext, h, hp⟩ := app_main_events env fuel s
  have h2 : (app_main env fuel s).2.trace = (s.trace ++
      [Event.call (.cx_ecfp_init_public_key (LedgerPubKey env.TEST_PUBLIC_KEY))]) ++ ext := by
    rw [h]
    simp
  rw [h2, init_calls_append_loop_events _ _ hp]
  simp [init_calls, List.filter_append, is_init]

/-- C16, as the code has it. `init_application_context` is called exactly once in
every run of `app_main`, however many passes the loop of `app_main` makes, and when
it has returned the context holds the key of init.c and the mode flag
`INITIAL_STATE`, whatever the context was before. Hence every pass of the loop of
`main` in which `UX_INIT` and the bring-up calls return adds exactly one such call to
the log: the context is initialised on every supervisor retry. -/
theorem C16_context_initialised_on_every_entry (env : Env) (inner : Nat) (s : State) :
    init_calls (app_main env inner s).2.trace = init_calls s.trace ++
      [Event.call (.cx_ecfp_init_public_key (LedgerPubKey env.TEST_PUBLIC_KEY))] ∧
    (∀ s1, app_main_entry env s = (.ok (), s1) →
      s1.ctx = { ledger_public_key := LedgerPubKey env.TEST_PUBLIC_KEY,
                 state := env.INITIAL_STATE }) ∧
    (∀ s3 s4, ext_call env .UX_INIT s = (.ok (), s3) → bring_up env s3 = (.ok (), s4) →
      init_calls (main_body env inner s).2.trace = init_calls s.trace ++
        [Event.call (.cx_ecfp_init_public_key (LedgerPubKey env.TEST_PUBLIC_KEY))]) := by
  refine ⟨init_calls_app_main env inner s, ?_, ?_⟩
  · intro s1 h
    rw [app_main_entry_ok env s s1 h]
  · intro s3 s4 h3 h4
    have h := main_body_of_bring_up env inner s s3 s4 h3 h4
    rw [h.2.2, catch_route_snd, init_calls_app_main, h.1]
    simp [init_calls, List.filter_append, is_init]

/-- C16 at a concrete run: one pass of `main` in which the handler has set the mode
flag to 7, started from a state whose log is empty, holds one initialisation. -/
theorem C16_context_initialised_on_every_entry_witness :
    (app_main_entry env_set_state state_used).2.ctx
      = { ledger_public_key := [], state := 0 } ∧
    init_calls (main_body env_set_state 5 state_boot).2.trace
      = [Event.call (.cx_ecfp_init_public_key [])] := by
  have h := C16_context_initialised_on_every_entry env_set_state 5 state_boot
  have h2 := C16_context_initialised_on_every_entry env_set_state 5 state_used
  refine ⟨h2.2.1 (app_main_entry env_set_state state_used).2 (by decide), ?_⟩
  rw [h.2.2 (ext_call env_set_state .UX_INIT state_boot).2
    (bring_up env_set_state (ext_call env_set_state .UX_INIT state_boot).2).2
    (by decide) (by decide)]
  decide

/-- C16 as stated fails: in two passes of the loop of `main`, each ended by a handler
that has set the mode flag to 7 and returned -1, `init_application_context` is called
twice, and the handler of the second pass is given a context whose mode flag is back
at `INITIAL_STATE` = 0. -/
theorem C16_counterexample :
    (main_loop env_set_state 5 1 state_boot).2.ctx.state = 7 ∧
    init_calls (main_loop env_set_state 5 2 state_boot).2.trace
      = [Event.call (.cx_ecfp_init_public_key []),
         Event.call (.cx_ecfp_init_public_key [])] ∧
    dispatch_calls (main_loop env_set_state 5 2 state_boot).2.trace
      = [Event.dispatch_command 1 { ledger_public_key := [], state := 0 }
           [7, 0, 0, 0, 0, 0] 1,
         Event.dispatch_command 1 { ledger_public_key := [], state := 0 }
           [7, 0, 0, 0, 0, 0] 1] := by
  decide

/-! ### The payload length handed to the handler -/

theorem payload_length_app_main_body (env : Env) (s : State) :
    ∃ new, dispatch_calls (app_main_body env s).2.trace = dispatch_calls s.trace ++ new ∧
      ∀ e ∈ new, ∃ ins c p l, e = Event.dispatch_command ins c p l ∧ 0 ≤ l := by
  have hr := dispatch_calls_recv_apdu env s
  rcases hrecv : recv_apdu env s with ⟨r, s1⟩
  rw [hrecv] at hr
  simp only at hr
  cases r with
  | raised f =>
    refine ⟨[], ?_, by simp⟩
    simp [app_main_body, hrecv, hr]
  | ok len =>
    by_cases hbad : len ≤ (OFFSET_INS : Int) ∨ s1.G_io_apdu_buffer.getD OFFSET_CLA 0 ≠ CLA ∨
        s1.G_io_apdu_buffer.getD OFFSET_INS 0 ≥ env.COMMAND_UPPER_BOUND
    · refine ⟨[], ?_, by simp⟩
      rw [app_main_body_of_rejected env s s1 len hrecv hbad]
      simp [hr]
    · have hlen : (OFFSET_INS : Int) < len := by
        by_contra h
        exact hbad (Or.inl (by omega))
      have hcla : s1.G_io_apdu_buffer.getD OFFSET_CLA 0 = CLA := by
        by_contra h
        exact hbad (Or.inr (Or.inl h))
      have hins : s1.G_io_apdu_buffer.getD OFFSET_INS 0 < env.COMMAND_UPPER_BOUND := by
        by_contra h
        exact hbad (Or.inr (Or.inr (by omega)))
      have hd := (app_main_body_of_accepted env s s1 len hrecv hlen hcla hins)
      have hc := dispatch_calls_dispatch_command env (s1.G_io_apdu_buffer.getD OFFSET_INS 0)
        (s1.G_io_apdu_buffer.drop OFFSET_CDATA) (len - (OFFSET_CDATA : Int)) s1
      refine ⟨[Event.dispatch_command (s1.G_io_apdu_buffer.getD OFFSET_INS 0) s1.ctx
        (s1.G_io_apdu_buffer.drop OFFSET_CDATA) (len - (OFFSET_CDATA : Int))], ?_, ?_⟩
      · rw [hd]
        rcases hx : dispatch_command env (s1.G_io_apdu_buffer.getD OFFSET_INS 0)
          (s1.G_io_apdu_buffer.drop OFFSET_CDATA) (len - (OFFSET_CDATA : Int))
          (send_apdu env) s1 with ⟨r2, s2⟩
        rw [hx] at hc
        simp only at hc
        rw [hr] at hc
        cases r2 with
        | raised f => exact hc
        | ok status =>
          simp only
          split
          · exact hc
          · split
            · rw [dispatch_calls_idle_block]; exact hc
            · exact hc
      · intro e he
        simp only [List.mem_singleton] at he
        refine ⟨_, _, _, _, he, ?_⟩
        simp only [OFFSET_INS, OFFSET_CDATA] at hlen ⊢
        omega

theorem payload_length_app_main_loop (env : Env) (fuel : Nat) :
    ∀ s : State, ∃ new,
      dispatch_calls (app_main_loop env fuel s).2.trace = dispatch_calls s.trace ++ new ∧
      ∀ e ∈ new, ∃ ins c p l, e = Event.dispatch_command ins c p l ∧ 0 ≤ l := by
  induction fuel with
  | zero => intro s; exact ⟨[], by simp [app_main_loop], by simp⟩
  | succ k ih =>
    intro s
    obtain ⟨new1, h1, hb1⟩ := payload_length_app_main_body env s
    rw [app_main_loop]
    rcases hx : app_main_body env s with ⟨r, s1⟩
    rw [hx] at h1
    cases r with
    | raised f => exact ⟨new1, h1, hb1⟩
    | returned => exact ⟨new1, h1, hb1⟩
    | again =>
      obtain ⟨new2, h2, hb2⟩ := ih s1
      refine ⟨new1 ++ new2, ?_, ?_⟩
      · simp only at h1 ⊢
        rw [h2, h1, List.append_assoc]
      · intro e he
        rcases List.mem_append.mp he with h | h
        · exact hb1 e h
        · exact hb2 e h

theorem dispatch_calls_append_non_dispatch (tr ext : List Event)
    (h : ∀ e ∈ ext, is_dispatch e = false) :
    dispatch_calls (tr ++ ext) = dispatch_calls tr := by
  have h0 : ext.filter is_dispatch = [] := by
    rw [List.filter_eq_nil_iff]
    intro e he
    rw [h e he]
    simp
  simp [dispatch_calls, List.filter_append, h0]

theorem payload_length_app_main (env : Env) (fuel : Nat) (s : State) :
    ∃ new, dispatch_calls (app_main env fuel s).2.trace = dispatch_calls s.trace ++ new ∧
      ∀ e ∈ new, ∃ ins c p l, e = Event.dispatch_command ins c p l ∧ 0 ≤ l := by
  rw [app_main_eq_entry_then_loop]
  rcases he : app_main_entry env s with ⟨r, s1⟩
  cases r with
  | raised f =>
    refine ⟨[], ?_, by simp⟩
    simp only [List.append_nil]
    have key : dispatch_calls s1.trace = dispatch_calls s.trace := by
      unfold app_main_entry at he
      have hi := (init_application_context_snd env s).1
      rcases hx : init_application_context env s with ⟨ri, sa⟩
      rw [hx] at he hi
      simp only at hi
      have hsa : dispatch_calls sa.trace = dispatch_calls s.trace := by
        rw [hi]
        simp [dispatch_calls, is_dispatch]
      cases ri with
      | raised g =>
        simp only [Prod.mk.injEq] at he
        rw [← he.2]
        exact hsa
      | ok v =>
        simp only at he
        have hu := dispatch_calls_ext_call env .ui_idle sa
        rcases hy : ext_call env .ui_idle sa with ⟨ru, sb⟩
        rw [hy] at he hu
        simp only at hu
        cases ru with
        | raised g =>
          simp only [Prod.mk.injEq] at he
          rw [← he.2, hu]
          exact hsa
        | ok w => simp at he
    exact key
  | ok v =>
    have hs := app_main_entry_ok env s s1 he
    obtain ⟨new, hn, hb⟩ := payload_length_app_main_loop env fuel s1
    refine ⟨new, ?_, hb⟩
    simp only
    rw [hn, hs]
    simp [dispatch_calls, List.filter_append, is_dispatch]

/-- C18. Whenever `app_main` calls `dispatch_command`, the payload length it passes
is not negative. At every pass, a length returned by `recv_apdu` that passes the gate
(above `OFFSET_INS`) is at least `OFFSET_CDATA`, so that the length minus
`OFFSET_CDATA` is at least 0; and in every run of `app_main`, from every state and
for every number of passes, each call of `dispatch_command` the run adds to the log
has a payload length of at least 0. -/
theorem C18_payload_length_not_negative (env : Env) :
    (∀ (s s1 : State) (len : Int), recv_apdu env s = (.ok len, s1) →
      ¬ (len ≤ (OFFSET_INS : Int) ∨ s1.G_io_apdu_buffer.getD OFFSET_CLA 0 ≠ CLA ∨
        s1.G_io_apdu_buffer.getD OFFSET_INS 0 ≥ env.COMMAND_UPPER_BOUND) →
      (OFFSET_CDATA : Int) ≤ len ∧ 0 ≤ len - (OFFSET_CDATA : Int)) ∧
    (∀ (fuel : Nat) (s : State), ∃ new,
      dispatch_calls (app_main env fuel s).2.trace = dispatch_calls s.trace ++ new ∧
      ∀ e ∈ new, ∃ ins c p l, e = Event.dispatch_command ins c p l ∧ 0 ≤ l) := by
  constructor
  · intro s s1 len _ hgate
    have hlen : (OFFSET_INS : Int) < len := by
      by_contra h
      exact hgate (Or.inl (by omega))
    simp only [OFFSET_INS, OFFSET_CDATA] at hlen ⊢
    omega
  · intro fuel s
    exact payload_length_app_main env fuel s

/-- C18 at a concrete frame: the two byte frame `E0 00` passes the gate and is
dispatched with payload length 0. -/
theorem C18_payload_length_not_negative_witness :
    (recv_apdu env_header_only state_boot).1 = .ok 2 ∧
    (OFFSET_CDATA : Int) ≤ 2 ∧ (0 : Int) ≤ 2 - (OFFSET_CDATA : Int) ∧
    dispatch_calls (app_main env_header_only 1 state_boot).2.trace
      = [Event.dispatch_command 0 { ledger_public_key := [], state := 0 }
          [0, 0, 0, 0, 0, 0] 0] := by
  have h := (C18_payload_length_not_negative env_header_only).1 state_boot
    (recv_apdu env_header_only state_boot).2 2 (by decide) (by decide)
  exact ⟨by decide, h.1, h.2, by decide⟩

/-! ### Legal interleavings -/

theorem do_call_of_transport (env : Env)
    (hT : ∀ tr m l b, ∃ r buf, env.io_exchange tr m l b = .ok (r, buf) ∧ r ≠ -1)
    (c : ApduCall) (s : State) :
    ∃ r s1, do_call env c s = (.ok r, s1) ∧ s1.io_state = table_4_1 s.io_state c ∧
      (r ≠ -1 ↔ valid_call s.io_state c = true) := by
  have hx : ∀ m l (s0 : State), ∃ r s1, io_exchange env m l s0 = (.ok r, s1) ∧
      s1.io_state = s0.io_state ∧ r ≠ -1 := by
    intro m l s0
    obtain ⟨r, buf, hv, hr⟩ := hT s0.trace m l s0.G_io_apdu_buffer
    exact ⟨r, _, io_exchange_ok_of_env env m l s0 r buf hv, rfl, hr⟩
  cases c with
  | recv =>
    simp only [do_call]
    cases h : s.io_state
    · rw [recv_apdu_READY env s h]
      obtain ⟨r, s1, h1, h2, h3⟩ := hx .CHANNEL_APDU s.output_length
        { s with io_state := .RECEIVED, trace := s.trace ++ [Event.recv_apdu] }
      exact ⟨r, s1, h1, h2, by simp [valid_call, h3]⟩
    · rw [recv_apdu_RECEIVED env s h]
      obtain ⟨r, s1, h1, h2, h3⟩ := hx .IO_ASYNCH_REPLY s.output_length
        { s with io_state := .WAITING_USER, trace := s.trace ++ [Event.recv_apdu] }
      exact ⟨r, s1, h1, h2, by simp [valid_call, h3]⟩
    · rw [recv_apdu_WAITING_USER env s h]
      exact ⟨-1, _, rfl, rfl, by simp [valid_call]⟩
  | send b n =>
    simp only [do_call]
    cases h : s.io_state
    · rw [send_apdu_READY env b n s h]
      exact ⟨-1, _, rfl, h, by simp [valid_call]⟩
    · rw [send_apdu_RECEIVED env b n s h]
      exact ⟨0, _, rfl, rfl, by simp [valid_call]⟩
    · rw [send_apdu_WAITING_USER env b n s h]
      obtain ⟨r, s1, h1, _, _⟩ := hx .IO_RETURN_AFTER_TX (int_of_unsigned n) { s with
          G_io_apdu_buffer := os_memmove s.G_io_apdu_buffer b n,
          output_length := int_of_unsigned n,
          trace := s.trace ++ [Event.send_apdu b n] }
      rw [h1]
      exact ⟨0, _, rfl, rfl, by simp [valid_call]⟩

theorem run_calls_of_transport (env : Env)
    (hT : ∀ tr m l b, ∃ r buf, env.io_exchange tr m l b = .ok (r, buf) ∧ r ≠ -1)
    (calls : List ApduCall) :
    ∀ s : State, ∃ rs s1, run_calls env calls s = (.ok rs, s1) ∧
      s1.io_state = calls.foldl table_4_1 s.io_state ∧
      (-1 ∉ rs ↔ accepts s.io_state calls = true) := by
  induction calls with
  | nil => intro s; exact ⟨[], s, rfl, rfl, by simp [accepts]⟩
  | cons c t ih =>
    intro s
    obtain ⟨r, s1, hdo, hst, hr⟩ := do_call_of_transport env hT c s
    obtain ⟨rs, s2, hrun, hst2, hrs⟩ := ih s1
    refine ⟨r :: rs, s2, ?_, ?_, ?_⟩
    · rw [run_calls, hdo]
      simp only
      rw [hrun]
    · rw [hst2, hst]
      rfl
    · rw [hst] at hrs
      simp only [List.mem_cons, not_or, accepts, Bool.and_eq_true]
      constructor
      · rintro ⟨h1, h2⟩
        exact ⟨hr.mp (fun h => h1 h.symm), hrs.mp h2⟩
      · rintro ⟨h1, h2⟩
        exact ⟨fun h => hr.mpr h1 h.symm, hrs.mpr h2⟩

theorem run_calls_append (env : Env) (a b : List ApduCall) :
    ∀ (s s1 s2 : State) (ra rb : List Int), run_calls env a s = (.ok ra, s1) →
      run_calls env b s1 = (.ok rb, s2) →
      run_calls env (a ++ b) s = (.ok (ra ++ rb), s2) := by
  induction a with
  | nil =>
    intro s s1 s2 ra rb ha hb
    simp only [run_calls, Prod.mk.injEq, Ret.ok.injEq] at ha
    obtain ⟨h1, h2⟩ := ha
    subst h1
    subst h2
    simpa using hb
  | cons c t ih =>
    intro s s1 s2 ra rb ha hb
    rw [run_calls] at ha
    rw [List.cons_append, run_calls]
    rcases hc : do_call env c s with ⟨r, sa⟩
    rw [hc] at ha
    cases r with
    | raised f => simp at ha
    | ok v =>
      simp only at ha ⊢
      rcases ht : run_calls env t sa with ⟨r2, sb⟩
      rw [ht] at ha
      cases r2 with
      | raised f => simp at ha
      | ok ws =>
        simp only [Prod.mk.injEq, Ret.ok.injEq] at ha
        rw [← ha.2] at hb
        rw [ih sa sb s2 ws rb ht hb, ← ha.1]
        rfl

theorem accepts_of_append (a b : List ApduCall) :
    ∀ st : io_state_e, accepts st (a ++ b) = true → accepts st a = true := by
  induction a with
  | nil => intro st _; rfl
  | cons c t ih =>
    intro st h
    simp only [List.cons_append, accepts, Bool.and_eq_true] at h ⊢
    exact ⟨h.1, ih _ h.2⟩

theorem accepts_exchange_append (bl l : List ApduCall) (hbl : is_exchange bl) :
    accepts .READY (bl ++ l) = accepts .READY l := by
  rcases hbl with ⟨b, n, rfl⟩ | ⟨b, n, rfl⟩ <;> simp [accepts, valid_call, table_4_1]

theorem accepts_flatten (blocks : List (List ApduCall)) :
    (∀ bl ∈ blocks, is_exchange bl) → accepts .READY blocks.flatten = true := by
  induction blocks with
  | nil => intro _; rfl
  | cons bl bs ih =>
    intro h
    rw [List.flatten_cons, accepts_exchange_append bl _ (h bl (by simp))]
    exact ih (fun x hx => h x (by simp [hx]))

theorem legal_interleaving_cons_exchange (bl calls : List ApduCall) (hbl : is_exchange bl)
    (h : legal_interleaving calls) : legal_interleaving (bl ++ calls) := by
  obtain ⟨blocks, rest, hb, he⟩ := h
  refine ⟨bl :: blocks, rest, ?_, ?_⟩
  · intro x hx
    rcases List.mem_cons.mp hx with h1 | h1
    · rw [h1]; exact hbl
    · exact hb x h1
  · rw [List.flatten_cons, List.append_assoc, he]

theorem legal_of_accepts (calls : List ApduCall) :
    (accepts .READY calls = true → legal_interleaving calls) ∧
    (accepts .RECEIVED calls = true → legal_interleaving (.recv :: calls)) ∧
    (accepts .WAITING_USER calls = true → legal_interleaving (.recv :: .recv :: calls)) := by
  induction calls with
  | nil =>
    refine ⟨fun _ => ⟨[], [], by simp, rfl⟩, fun _ => ?_, fun _ => ?_⟩
    · exact ⟨[[.recv, .send [] 0]], [.send [] 0],
        by intro bl hbl; simp at hbl; rw [hbl]; exact Or.inl ⟨[], 0, rfl⟩, rfl⟩
    · exact ⟨[[.recv, .recv, .send [] 0]], [.send [] 0],
        by intro bl hbl; simp at hbl; rw [hbl]; exact Or.inr ⟨[], 0, rfl⟩, rfl⟩
  | cons c t ih =>
    obtain ⟨ihR, ihC, ihW⟩ := ih
    cases c with
    | recv =>
      refine ⟨fun h => ?_, fun h => ?_, fun h => ?_⟩
      · simp only [accepts, valid_call, table_4_1, Bool.true_and] at h
        exact ihC h
      · simp only [accepts, valid_call, table_4_1, Bool.true_and] at h
        exact ihW h
      · simp [accepts, valid_call] at h
    | send b n =>
      refine ⟨fun h => ?_, fun h => ?_, fun h => ?_⟩
      · simp [accepts, valid_call] at h
      · simp only [accepts, valid_call, table_4_1, Bool.true_and] at h
        exact legal_interleaving_cons_exchange [.recv, .send b n] t (Or.inl ⟨b, n, rfl⟩)
          (ihR h)
      · simp only [accepts, valid_call, table_4_1, Bool.true_and] at h
        exact legal_interleaving_cons_exchange [.recv, .recv, .send b n] t
          (Or.inr ⟨b, n, rfl⟩) (ihR h)

theorem accepts_iff_legal (calls : List ApduCall) :
    accepts .READY calls = true ↔ legal_interleaving calls := by
  constructor
  · exact (legal_of_accepts calls).1
  · rintro ⟨blocks, rest, hb, he⟩
    apply accepts_of_append calls rest
    rw [he]
    exact accepts_flatten blocks hb

theorem run_calls_two_sends (env : Env)
    (hT : ∀ tr m l b, ∃ r buf, env.io_exchange tr m l b = .ok (r, buf) ∧ r ≠ -1)
    (b1 : List Nat) (n1 : Nat) (b2 : List Nat) (n2 : Nat) (s : State) :
    ∃ r1 s2, run_calls env [.send b1 n1, .send b2 n2] s = (.ok [r1, -1], s2) := by
  obtain ⟨r1, s1, h1, hst, _⟩ := do_call_of_transport env hT (.send b1 n1) s
  have hready : s1.io_state = .READY := by
    rw [hst]
    cases s.io_state <;> rfl
  refine ⟨r1, (send_apdu env b2 n2 s1).2, ?_⟩
  rw [run_calls, h1]
  simp only
  rw [run_calls]
  simp only [do_call]
  rw [send_apdu_READY env b2 n2 s1 hready]
  simp only [run_calls]

theorem run_calls_three_recvs (env : Env)
    (hT : ∀ tr m l b, ∃ r buf, env.io_exchange tr m l b = .ok (r, buf) ∧ r ≠ -1)
    (s : State) (h0 : s.io_state = .READY) :
    ∃ r1 r2 s3, run_calls env [.recv, .recv, .recv] s = (.ok [r1, r2, -1], s3) := by
  obtain ⟨r1, s1, h1, hst1, _⟩ := do_call_of_transport env hT .recv s
  rw [h0] at hst1
  obtain ⟨r2, s2, h2, hst2, _⟩ := do_call_of_transport env hT .recv s1
  rw [hst1] at hst2
  have hw : s2.io_state = .WAITING_USER := hst2
  refine ⟨r1, r2, (recv_apdu env s2).2, ?_⟩
  rw [run_calls, h1]
  simp only
  rw [run_calls, h2]
  simp only
  rw [run_calls]
  simp only [do_call]
  rw [recv_apdu_WAITING_USER env s2 hw]
  simp only [run_calls]

/-- C17, as the code has it. With a transport whose exchanges return and never return
-1, a sequence of calls started in READY has no call returning -1 if and only if it
is an initial part of a concatenation of the exchanges `recv, send` and
`recv, recv, send`. The second of two consecutive sends always returns -1. The third
of three consecutive receives returns -1 when the three come at the start of the
sequence or right after a send, that is, when the first of them is made in READY. -/
theorem C17_legal_interleavings (env : Env)
    (hT : ∀ tr m l b, ∃ r buf, env.io_exchange tr m l b = .ok (r, buf) ∧ r ≠ -1)
    (s : State) (h0 : s.io_state = .READY) :
    (∀ calls, ∃ rs, (run_calls env calls s).1 = .ok rs ∧
      (-1 ∉ rs ↔ legal_interleaving calls)) ∧
    (∀ pre b1 n1 b2 n2, ∃ rs,
      (run_calls env (pre ++ [.send b1 n1, .send b2 n2]) s).1 = .ok (rs ++ [-1])) ∧
    (∀ pre, (pre = [] ∨ ∃ q b n, pre = q ++ [.send b n]) → ∃ rs,
      (run_calls env (pre ++ [.recv, .recv, .recv]) s).1 = .ok (rs ++ [-1])) := by
  refine ⟨?_, ?_, ?_⟩
  · intro calls
    obtain ⟨rs, s1, hrun, _, hacc⟩ := run_calls_of_transport env hT calls s
    refine ⟨rs, by rw [hrun], ?_⟩
    rw [hacc, h0]
    exact accepts_iff_legal calls
  · intro pre b1 n1 b2 n2
    obtain ⟨ra, s1, hpre, _, _⟩ := run_calls_of_transport env hT pre s
    obtain ⟨r1, s2, htail⟩ := run_calls_two_sends env hT b1 n1 b2 n2 s1
    refine ⟨ra ++ [r1], ?_⟩
    rw [run_calls_append env pre _ s s1 s2 ra _ hpre htail]
    simp
  · intro pre hpre0
    obtain ⟨ra, s1, hpre, hst, _⟩ := run_calls_of_transport env hT pre s
    have hready : s1.io_state = .READY := by
      rw [hst]
      rcases hpre0 with rfl | ⟨q, b, n, rfl⟩
      · exact h0
      · rw [List.foldl_append]
        simp only [List.foldl_cons, List.foldl_nil]
        cases List.foldl table_4_1 s.io_state q <;> rfl
    obtain ⟨r1, r2, s3, htail⟩ := run_calls_three_recvs env hT s1 hready
    refine ⟨ra ++ [r1, r2], ?_⟩
    rw [run_calls_append env pre _ s s1 s3 ra _ hpre htail]
    simp

/-- C17 at concrete runs: a two-phase exchange after a synchronous one is legal; the
second of two sends and the third of three receives after a send return -1. -/
theorem C17_legal_interleavings_witness :
    legal_interleaving [.recv, .send [1, 2] 2, .recv, .recv, .send [3] 1] ∧
    (run_calls env_echo [.recv, .send [1] 1, .send [2] 1] state_boot).1 = .ok [3, 0, -1] ∧
    (run_calls env_echo [.recv, .send [1] 1, .recv, .recv, .recv] state_boot).1
      = .ok [3, 0, 3, 3, -1] := by
  have hT : ∀ tr m l b, ∃ r buf, env_echo.io_exchange tr m l b = .ok (r, buf) ∧ r ≠ -1 := by
    intro tr m l b
    cases m <;> exact ⟨_, _, rfl, by decide⟩
  have h := C17_legal_interleavings env_echo hT state_boot rfl
  refine ⟨?_, by decide, by decide⟩
  obtain ⟨rs, hrs, hiff⟩ := h.1 [.recv, .send [1, 2] 2, .recv, .recv, .send [3] 1]
  have hval : (run_calls env_echo [.recv, .send [1, 2] 2, .recv, .recv, .send [3] 1]
      state_boot).1 = .ok [3, 0, 3, 3, 0] := by decide
  rw [hval] at hrs
  simp only [Ret.ok.injEq] at hrs
  rw [← hrs] at hiff
  exact hiff.mp (by decide)

/-- C17 as stated fails in its last part: of four receives in a row started in READY,
with a transport that always returns 3, the third returns -1 and puts the state back
to READY, so that the fourth, which is the third of the three consecutive receives
2 to 4, returns 3. -/
theorem C17_counterexample :
    state_boot.io_state = .READY ∧
    (run_calls env_echo [.recv, .recv, .recv, .recv] state_boot).1 = .ok [3, 3, -1, 3] := by
  decide

end AppExchange
